import Mathlib

/-!
Verification of the per-session engine of the haproxy-1.4.21 sources vendored
by muppet (src/deps/haproxy-1.4.21): circular buffers (src/buffers.c), the
PROXY-preamble decoder (src/client.c), TCP request inspection and RDP-cookie
persistence (src/proto_tcp.c), ACL condition evaluation (src/acl.c) and the
session state machine (src/session.c).

The C code is shallowly embedded: C structs become Lean structures, pointer
walks become index or suffix computations over a `List Char`, and unsigned
machine arithmetic is modelled over `Nat` with explicit reductions mod 2^32
where the C type matters.  Flag words whose bit values live in headers that
are not part of the vendored sources are represented as records of named
booleans.  Helper functions whose bodies are not in the vendored sources are
modelled from the specification and marked `Modelled from the spec:` in their
doc comment.
-/

namespace Muppet

/-- Buffer flag word of struct buffer.  The numeric bit assignment lives in
types/buffers.h which is outside the vendored sources, so each flag used by
the embedded code is a named boolean (the names follow the spec's flag
list: SHUTR, SHUTR_NOW, SHUTW, SHUTW_NOW, READ_ERROR, READ_TIMEOUT,
READ_PARTIAL, WRITE_ERROR, OUT_EMPTY, FULL, AUTO_CLOSE, AUTO_CONNECT,
HIJACK). -/
structure BufFlags where
  full : Bool
  out_empty : Bool
  shutr : Bool
  shutr_now : Bool
  shutw : Bool
  shutw_now : Bool
  read_error : Bool
  read_timeout : Bool
  read_partial_flag : Bool
  write_error : Bool
  auto_connect : Bool
  auto_close : Bool
  hijack : Bool
deriving DecidableEq, Repr

/-- struct buffer (types/buffers.h).  `data` is the storage array (length
`size`); the cursors `r`, `w`, `lr` are offsets into it.  `max_len` models
the result of buffer_max_len: that helper lives in proto/buffers.h which is
outside the vendored sources, so — Modelled from the spec: "max_len (dynamic
limit below size)" — it is represented as a per-buffer dynamic limit that the
embedded mutators read but do not change. -/
structure Buffer where
  size : Nat
  data : List Char
  l : Nat
  r : Nat
  w : Nat
  lr : Nat
  send_max : Nat
  to_forward : Nat
  total : Nat
  max_len : Nat
  analysers : Nat
  analyse_exp : Nat
  flags : BufFlags
deriving DecidableEq, Repr

/-- Modelled from the spec: the "infinite" forward sentinel (spec 4.1:
forward saturates "at 2^31-1 or flagging infinite"); the sentinel is the
maximal 32-bit value of the unsigned to_forward field. -/
def BUF_INFINITE_FORWARD : Nat := 2 ^ 32 - 1

/-- Modelled from the spec: MID_RANGE clamps a 32-bit quantity to the
2^31-1 saturation bound used by buffer_forward on overflow ("let's assume no
more than 2G at once"). -/
def MID_RANGE (x : Nat) : Nat := x &&& (2 ^ 31 - 1)

/-- 32-bit unsigned subtraction a - b (b < 2^32 assumed), as computed by C
on unsigned int operands. -/
def usub32 (a b : Nat) : Nat := (a + 2 ^ 32 - b) % 2 ^ 32

theorem usub32_of_le {a b : Nat} (hb : b ≤ a) (ha : a < 2 ^ 32) :
    usub32 a b = a - b := by
  unfold usub32
  have h1 : a + 2 ^ 32 - b = (a - b) + 2 ^ 32 := by omega
  rw [h1, Nat.add_mod_right, Nat.mod_eq_of_lt (by omega)]

/-- src/buffers.c:41 buffer_forward — schedule up to `bytes` more bytes to be
forwarded; the sole mutator of to_forward.  Returns the updated buffer and
the byte count taken into account. -/
def buffer_forward (buf : Buffer) (bytes : Nat) : Buffer × Nat :=
  if bytes = 0 then (buf, 0) else
  let data_left := usub32 buf.l buf.send_max
  if bytes ≤ data_left then
    ({ buf with send_max := buf.send_max + bytes,
                flags := { buf.flags with out_empty := false } }, bytes)
  else
    let send_max' := buf.send_max + data_left
    let out_empty' := if send_max' ≠ 0 then false else buf.flags.out_empty
    let full' := if buf.l < buf.max_len then false else true
    let fl' := { buf.flags with out_empty := out_empty', full := full' }
    if bytes = BUF_INFINITE_FORWARD then
      ({ buf with send_max := send_max', flags := fl', to_forward := bytes }, bytes)
    else if buf.to_forward = BUF_INFINITE_FORWARD then
      ({ buf with send_max := send_max', flags := fl' }, bytes)
    else
      let new_forward := (buf.to_forward + bytes - data_left) % 2 ^ 32
      let bytes1 := data_left
      let new_forward' := if new_forward ≤ buf.to_forward then MID_RANGE new_forward
                          else new_forward
      if buf.to_forward < new_forward' then
        ({ buf with send_max := send_max', flags := fl', to_forward := new_forward' },
         bytes1 + (new_forward' - buf.to_forward))
      else
        ({ buf with send_max := send_max', flags := fl' }, bytes1)

/-- Modelled from the spec: buffer_contig_space (proto/buffers.h is outside
the vendored sources) — the number of bytes that can be appended at the
write head `r` without wrapping, for the in-place ring of spec 4.1. -/
def buffer_contig_space (buf : Buffer) : Nat :=
  if buf.l = 0 then buf.size - buf.r
  else if buf.w < buf.r then buf.size - buf.r
  else buf.w - buf.r

/-- Modelled from the spec: buffer_realign (proto/buffers.h is outside the
vendored sources) — an empty buffer has its three cursors reset to the origin
(spec 3: "when l == 0, r = w = lr"), and the contiguous free space is
returned. -/
def buffer_realign (buf : Buffer) : Buffer × Nat :=
  let buf' := if buf.l = 0 then { buf with r := 0, w := 0, lr := 0 } else buf
  (buf', buffer_contig_space buf')

/-- memcpy of `msg` into `data` at offset `pos` (no wrapping). -/
def listWrite (data : List Char) (pos : Nat) (msg : List Char) : List Char :=
  (List.range data.length).map (fun i =>
    if pos ≤ i ∧ i < pos + msg.length then msg.getD (i - pos) ' '
    else data.getD i ' ')

/-- src/buffers.c:95 buffer_write — append `len` bytes of `msg` at the write
head; returns -1 on success, -2 if the message can never fit, otherwise the
contiguous free byte count. -/
def buffer_write (buf : Buffer) (msg : List Char) (len : Nat) : Buffer × Int :=
  if len = 0 then (buf, -1)
  else if buf.size < len then (buf, -2)
  else
    let p := buffer_realign buf
    let buf1 : Buffer := p.1
    let max := p.2
    if max < len then (buf1, Int.ofNat max)
    else
      let buf2 := { buf1 with data := listWrite buf1.data buf1.r (msg.take len),
                              l := buf1.l + len,
                              send_max := buf1.send_max + len,
                              r := buf1.r + len,
                              total := buf1.total + len }
      let buf3 : Buffer := if buf2.r = buf2.size then { buf2 with r := 0 } else buf2
      let buf4 := { buf3 with flags := { buf3.flags with out_empty := false, full := false } }
      let buf5 : Buffer := if buf4.max_len ≤ buf4.l then
                    { buf4 with flags := { buf4.flags with full := true } }
                  else buf4
      (buf5, -1)

/-- src/buffers.c:138 buffer_feed2 — like buffer_write but bounded by
max_len, and to_forward/send_max advance jointly. -/
def buffer_feed2 (buf : Buffer) (str : List Char) (len : Nat) : Buffer × Int :=
  if len = 0 then (buf, -1)
  else if buf.max_len < len then (buf, -2)
  else
    let max := buffer_contig_space buf
    if max < len then (buf, Int.ofNat max)
    else
      let buf1 := { buf with data := listWrite buf.data buf.r (str.take len),
                             l := buf.l + len,
                             r := buf.r + len,
                             total := buf.total + len }
      let buf2 : Buffer :=
        if buf1.to_forward ≠ 0 then
          let fwd := if buf1.to_forward ≠ BUF_INFINITE_FORWARD then
                       min len buf1.to_forward
                     else len
          let buf' : Buffer := if buf1.to_forward ≠ BUF_INFINITE_FORWARD then
                        { buf1 with to_forward := buf1.to_forward - fwd }
                      else buf1
          { buf' with send_max := buf'.send_max + fwd,
                      flags := { buf'.flags with out_empty := false } }
        else buf1
      let buf3 : Buffer := if buf2.r = buf2.size then { buf2 with r := 0 } else buf2
      let buf4 := { buf3 with flags := { buf3.flags with full := false } }
      let buf5 : Buffer := if buf4.max_len ≤ buf4.l then
                    { buf4 with flags := { buf4.flags with full := true } }
                  else buf4
      let buf6 := { buf5 with flags := { buf5.flags with read_partial_flag := true } }
      (buf6, -1)

/-- Copy loop of buffer_si_peekline: copy up to `max` committed bytes
starting at ring offset `p`, stopping after the first newline. -/
def peekline_loop (data : List Char) (size : Nat) : Nat → Nat → List Char
  | 0, _ => []
  | m + 1, p =>
    let c := data.getD p (Char.ofNat 0)
    if c = '\n' then [c]
    else
      let p' := if p + 1 = size then 0 else p + 1
      c :: peekline_loop data size m p'

/-- src/buffers.c:194 buffer_si_peekline — non-destructively read one line of
committed output into a destination of capacity `len`; returns the copied
byte count (first component) and the copied bytes. -/
def buffer_si_peekline (buf : Buffer) (len : Nat) : Int × List Char :=
  if buf.send_max = 0 then
    (if buf.flags.shutw || buf.flags.shutw_now then -1 else 0, [])
  else
    let max := if buf.send_max < len then buf.send_max else len
    let out := peekline_loop buf.data buf.size max buf.w
    let ret0 := out.length
    let ret : Int :=
      if 0 < ret0 ∧ ret0 < len ∧ ret0 < buf.send_max ∧
         out.getLast? ≠ some '\n' ∧
         (buf.flags.shutw || buf.flags.shutw_now) = false
      then 0 else Int.ofNat ret0
    (ret, out)

end Muppet

namespace Muppet

/-- Geometric well-formedness of a buffer: positive bounded size, cursors in
range, and the write head at w + l modulo size (spec 3: cursors fall in the
storage array). -/
def BufGeom (b : Buffer) : Prop :=
  0 < b.size ∧ b.size < 2 ^ 32 ∧ b.w < b.size ∧ b.r = (b.w + b.l) % b.size

/-- The buffer invariants named by the claim: 0 ≤ send_max ≤ l ≤ size,
FULL ⇔ l ≥ max_len, OUT_EMPTY ⇔ send_max = 0. -/
def BufInv (b : Buffer) : Prop :=
  b.send_max ≤ b.l ∧ b.l ≤ b.size ∧
  (b.flags.full = true ↔ b.max_len ≤ b.l) ∧
  (b.flags.out_empty = true ↔ b.send_max = 0)

instance (b : Buffer) : Decidable (BufGeom b) := by unfold BufGeom; infer_instance

instance (b : Buffer) : Decidable (BufInv b) := by unfold BufInv; infer_instance

theorem contig_bound {b : Buffer} (hg : BufGeom b) (hl : b.l ≤ b.size) :
    buffer_contig_space b ≤ b.size - b.l := by
  obtain ⟨hs, _, hw, hr⟩ := hg
  unfold buffer_contig_space
  rcases Nat.lt_or_ge (b.w + b.l) b.size with h | h
  · have hre : b.r = b.w + b.l := by rw [hr, Nat.mod_eq_of_lt h]
    split_ifs <;> omega
  · have h2 : b.w + b.l - b.size < b.size := by omega
    have hre : b.r = b.w + b.l - b.size := by
      rw [hr, Nat.mod_eq_sub_mod h, Nat.mod_eq_of_lt h2]
    split_ifs <;> omega

theorem buffer_write_inv (b : Buffer) (msg : List Char) (len : Nat)
    (hg : BufGeom b) (hi : BufInv b) : BufInv (buffer_write b msg len).1 := by
  obtain ⟨hsm, hls, hfull, hoe⟩ := hi
  by_cases h0 : len = 0
  · simp only [buffer_write, h0, if_true]
    exact ⟨hsm, hls, hfull, hoe⟩
  by_cases hbig : b.size < len
  · simp only [buffer_write, h0, hbig, if_true, if_false]
    exact ⟨hsm, hls, hfull, hoe⟩
  -- the realigned buffer
  set b1 : Buffer := (buffer_realign b).1 with hb1
  have hb1fields : b1.l = b.l ∧ b1.size = b.size ∧ b1.send_max = b.send_max ∧
      b1.max_len = b.max_len ∧ b1.flags = b.flags := by
    simp only [hb1, buffer_realign]
    split_ifs <;> simp
  have hg1 : BufGeom b1 := by
    obtain ⟨hs, hs32, hw, hr⟩ := hg
    simp only [hb1, buffer_realign]
    split_ifs with hz
    · refine ⟨hs, hs32, hs, ?_⟩
      simp [hz, Nat.mod_eq_of_lt hs]
    · exact ⟨hs, hs32, hw, hr⟩
  have hmax : (buffer_realign b).2 = buffer_contig_space b1 := by
    simp only [hb1, buffer_realign]
  have hcb : buffer_contig_space b1 ≤ b1.size - b1.l := by
    exact contig_bound hg1 (by omega)
  by_cases hroom : (buffer_realign b).2 < len
  · simp only [buffer_write, h0, hbig, hroom, if_true, if_false, ← hb1]
    obtain ⟨e1, e2, e3, e4, e5⟩ := hb1fields
    exact ⟨by omega, by omega, by rw [e1, e4, e5]; exact hfull,
           by rw [e3, e5]; exact hoe⟩
  · have hlen : len ≤ b1.size - b1.l := by
      rw [hmax] at hroom; omega
    simp only [buffer_write, h0, hbig, hroom, if_true, if_false, ← hb1]
    refine ⟨?_, ?_, ?_, ?_⟩ <;>
      split_ifs <;>
      simp_all <;> omega

end Muppet

namespace Muppet

set_option maxHeartbeats 1600000 in
theorem buffer_feed2_inv (b : Buffer) (str : List Char) (len : Nat)
    (hg : BufGeom b) (hi : BufInv b) : BufInv (buffer_feed2 b str len).1 := by
  obtain ⟨hsm, hls, hfull, hoe⟩ := hi
  by_cases h0 : len = 0
  · simp only [buffer_feed2, h0, if_true]
    exact ⟨hsm, hls, hfull, hoe⟩
  by_cases hbig : b.max_len < len
  · simp only [buffer_feed2, h0, hbig, if_true, if_false]
    exact ⟨hsm, hls, hfull, hoe⟩
  have hcb : buffer_contig_space b ≤ b.size - b.l := contig_bound hg hls
  by_cases hroom : buffer_contig_space b < len
  · simp only [buffer_feed2, h0, hbig, hroom, if_true, if_false]
    exact ⟨hsm, hls, hfull, hoe⟩
  · simp only [buffer_feed2, h0, hbig, hroom, if_true, if_false]
    refine ⟨?_, ?_, ?_, ?_⟩ <;>
      simp only [apply_ite Buffer.send_max, apply_ite Buffer.l, apply_ite Buffer.to_forward,
                 apply_ite Buffer.max_len, apply_ite Buffer.size, apply_ite Buffer.flags,
                 apply_ite BufFlags.full, apply_ite BufFlags.out_empty] <;>
      split_ifs <;>
      (try simp_all only [ne_eq, eq_self_iff_true, true_iff, false_iff]) <;>
      first
        | assumption
        | omega

set_option maxHeartbeats 1600000 in
theorem buffer_forward_inv (b : Buffer) (fwd : Nat)
    (hg : BufGeom b) (hi : BufInv b) : BufInv (buffer_forward b fwd).1 := by
  obtain ⟨hsm, hls, hfull, hoe⟩ := hi
  have hl32 : b.l < 2 ^ 32 := by
    obtain ⟨_, hs32, _, _⟩ := hg; omega
  have hdl : usub32 b.l b.send_max = b.l - b.send_max := usub32_of_le hsm hl32
  by_cases h0 : fwd = 0
  · simp only [buffer_forward, h0, if_true]
    exact ⟨hsm, hls, hfull, hoe⟩
  · simp only [buffer_forward, h0, hdl, if_false]
    refine ⟨?_, ?_, ?_, ?_⟩ <;>
      split_ifs <;>
      (try simp_all only [ne_eq, eq_self_iff_true, true_iff, false_iff]) <;>
      first
        | assumption
        | omega

/-- C4.  The buffer mutators buffer_write, buffer_feed2 and buffer_forward
each preserve the buffer invariants 0 ≤ send_max ≤ l ≤ size, FULL ⇔
l ≥ max_len and OUT_EMPTY ⇔ send_max = 0, for every geometrically
well-formed buffer state satisfying them and every input message and
length. -/
theorem C4_buffer_mutators_preserve_invariants (b : Buffer)
    (msg str : List Char) (wlen flen fwd : Nat)
    (hg : BufGeom b) (hi : BufInv b) :
    BufInv (buffer_write b msg wlen).1 ∧ BufInv (buffer_feed2 b str flen).1 ∧
    BufInv (buffer_forward b fwd).1 :=
  ⟨buffer_write_inv b msg wlen hg hi, buffer_feed2_inv b str flen hg hi,
   buffer_forward_inv b fwd hg hi⟩

/-- Empty flag word with all bits clear except OUT_EMPTY (a fresh buffer has
no committed output). -/
def freshFlags : BufFlags :=
  ⟨false, true, false, false, false, false, false, false, false, false,
   false, false, false⟩

/-- A concrete well-formed buffer used by the witnesses: size 8, 3 bytes
held of which 2 committed, dynamic limit 6. -/
def wbuf : Buffer :=
  ⟨8, [ 'a', 'b', 'c', ' ', ' ', ' ', ' ', ' ' ], 3, 3, 0, 0, 2, 5, 3, 6, 0, 0,
   ⟨false, false, false, false, false, false, false, false, false, false,
    false, false, false⟩⟩

/-- Witness for C4 at a concrete buffer, message and lengths. -/
theorem C4_buffer_mutators_preserve_invariants_witness :
    (BufGeom wbuf ∧ BufInv wbuf) ∧
    (BufInv (buffer_write wbuf [ 'x', 'y' ] 2).1 ∧
     BufInv (buffer_feed2 wbuf [ 'z' ] 1).1 ∧
     BufInv (buffer_forward wbuf 2).1) :=
  ⟨⟨by decide, by decide⟩,
   C4_buffer_mutators_preserve_invariants wbuf [ 'x', 'y' ] [ 'z' ] 2 1 2
     (by decide) (by decide)⟩

end Muppet

namespace Muppet

theorem infinite_big : 2 ^ 31 ≤ BUF_INFINITE_FORWARD := by
  unfold BUF_INFINITE_FORWARD; norm_num

/-- C5.  For every buffer state and byte counts k, m whose combined effect
stays below the 2^31-1 saturation bound (hence also below the infinite
forward sentinel), buffer_forward k followed by buffer_forward m leaves
send_max, to_forward and the flag word exactly as the single call
buffer_forward (k+m) does. -/
theorem C5_buffer_forward_compose (b : Buffer) (k m : Nat)
    (hsm : b.send_max ≤ b.l) (hl : b.l < 2 ^ 32)
    (hsat : b.to_forward + k + m < 2 ^ 31) :
    (buffer_forward (buffer_forward b k).1 m).1.send_max =
      (buffer_forward b (k + m)).1.send_max ∧
    (buffer_forward (buffer_forward b k).1 m).1.to_forward =
      (buffer_forward b (k + m)).1.to_forward ∧
    (buffer_forward (buffer_forward b k).1 m).1.flags =
      (buffer_forward b (k + m)).1.flags := by
  have hdl : usub32 b.l b.send_max = b.l - b.send_max := usub32_of_le hsm hl
  have hinf := infinite_big
  by_cases hk : k = 0
  · subst hk; simp [buffer_forward]
  by_cases hm : m = 0
  · subst hm
    have e0 : buffer_forward (buffer_forward b k).1 0 = ((buffer_forward b k).1, 0) := by
      simp [buffer_forward]
    rw [e0]
    exact ⟨rfl, rfl, rfl⟩
  have hkinf : k ≠ BUF_INFINITE_FORWARD := by omega
  have hminf : m ≠ BUF_INFINITE_FORWARD := by omega
  have hkminf : k + m ≠ BUF_INFINITE_FORWARD := by omega
  have htfinf : b.to_forward ≠ BUF_INFINITE_FORWARD := by omega
  rcases le_or_lt k (b.l - b.send_max) with hkd | hkd
  · -- first call takes the cheap branch
    have e1 : (buffer_forward b k).1 =
        { b with send_max := b.send_max + k,
                 flags := { b.flags with out_empty := false } } := by
      simp only [buffer_forward, if_neg hk, hdl, if_pos hkd]
    have hsm1 : b.send_max + k ≤ b.l := by omega
    have hdl1 : usub32 b.l (b.send_max + k) = b.l - (b.send_max + k) :=
      usub32_of_le hsm1 hl
    rcases le_or_lt m (b.l - (b.send_max + k)) with hmd | hmd
    · -- both calls take the cheap branch
      have hkmd : k + m ≤ b.l - b.send_max := by omega
      have e2 : (buffer_forward (buffer_forward b k).1 m).1 =
          { b with send_max := b.send_max + k + m,
                   flags := { b.flags with out_empty := false } } := by
        rw [e1]
        simp only [buffer_forward, if_neg hm, hdl1, if_pos hmd]
      have e3 : (buffer_forward b (k + m)).1 =
          { b with send_max := b.send_max + (k + m),
                   flags := { b.flags with out_empty := false } } := by
        simp only [buffer_forward, if_neg (by omega : ¬(k + m = 0)), hdl, if_pos hkmd]
      rw [e2, e3]
      refine ⟨by simp; omega, rfl, rfl⟩
    · -- second call crosses into the forwarding branch
      have hkmd : b.l - b.send_max < k + m := by omega
      have hnf2 : (b.to_forward + m - (b.l - (b.send_max + k))) % 2 ^ 32 =
          b.to_forward + m - (b.l - (b.send_max + k)) :=
        Nat.mod_eq_of_lt (by omega)
      have hnf3 : (b.to_forward + (k + m) - (b.l - b.send_max)) % 2 ^ 32 =
          b.to_forward + (k + m) - (b.l - b.send_max) :=
        Nat.mod_eq_of_lt (by omega)
      have e2 : (buffer_forward (buffer_forward b k).1 m).1 =
          { b with send_max := b.send_max + k + (b.l - (b.send_max + k)),
                   flags := { b.flags with
                     out_empty := if b.send_max + k + (b.l - (b.send_max + k)) ≠ 0
                                  then false else false,
                     full := if b.l < b.max_len then false else true },
                   to_forward := b.to_forward + m - (b.l - (b.send_max + k)) } := by
        rw [e1]
        simp only [buffer_forward, if_neg hm, hdl1, if_neg (by omega : ¬(m ≤ b.l - (b.send_max + k))),
                   if_neg hminf, if_neg htfinf, hnf2,
                   if_neg (by omega : ¬(b.to_forward + m - (b.l - (b.send_max + k)) ≤ b.to_forward)),
                   if_pos (by omega : b.to_forward < b.to_forward + m - (b.l - (b.send_max + k)))]
      have e3 : (buffer_forward b (k + m)).1 =
          { b with send_max := b.send_max + (b.l - b.send_max),
                   flags := { b.flags with
                     out_empty := if b.send_max + (b.l - b.send_max) ≠ 0
                                  then false else b.flags.out_empty,
                     full := if b.l < b.max_len then false else true },
                   to_forward := b.to_forward + (k + m) - (b.l - b.send_max) } := by
        simp only [buffer_forward, if_neg (by omega : ¬(k + m = 0)), hdl,
                   if_neg (by omega : ¬(k + m ≤ b.l - b.send_max)),
                   if_neg hkminf, if_neg htfinf, hnf3,
                   if_neg (by omega : ¬(b.to_forward + (k + m) - (b.l - b.send_max) ≤ b.to_forward)),
                   if_pos (by omega : b.to_forward < b.to_forward + (k + m) - (b.l - b.send_max))]
      rw [e2, e3]
      refine ⟨by simp; omega, by simp; omega, ?_⟩
      simp only [BufFlags.mk.injEq]
      split_ifs <;> simp_all
  · -- first call already crosses into the forwarding branch
    have hl1 : b.send_max + (b.l - b.send_max) = b.l := by omega
    have hnf1 : (b.to_forward + k - (b.l - b.send_max)) % 2 ^ 32 =
        b.to_forward + k - (b.l - b.send_max) := Nat.mod_eq_of_lt (by omega)
    have e1 : (buffer_forward b k).1 =
        { b with send_max := b.send_max + (b.l - b.send_max),
                 flags := { b.flags with
                   out_empty := if b.send_max + (b.l - b.send_max) ≠ 0
                                then false else b.flags.out_empty,
                   full := if b.l < b.max_len then false else true },
                 to_forward := b.to_forward + k - (b.l - b.send_max) } := by
      simp only [buffer_forward, if_neg hk, hdl, if_neg (by omega : ¬(k ≤ b.l - b.send_max)),
                 if_neg hkinf, if_neg htfinf, hnf1,
                 if_neg (by omega : ¬(b.to_forward + k - (b.l - b.send_max) ≤ b.to_forward)),
                 if_pos (by omega : b.to_forward < b.to_forward + k - (b.l - b.send_max))]
    have htf1 : b.to_forward + k - (b.l - b.send_max) ≠ BUF_INFINITE_FORWARD := by omega
    have hdl2 : usub32 b.l b.l = 0 := by
      rw [usub32_of_le (le_refl _) hl]; omega
    have hnf2 : (b.to_forward + k - (b.l - b.send_max) + m - 0) % 2 ^ 32 =
        b.to_forward + k - (b.l - b.send_max) + m - 0 := Nat.mod_eq_of_lt (by omega)
    have hnf3 : (b.to_forward + (k + m) - (b.l - b.send_max)) % 2 ^ 32 =
        b.to_forward + (k + m) - (b.l - b.send_max) := Nat.mod_eq_of_lt (by omega)
    have e2 : (buffer_forward (buffer_forward b k).1 m).1 =
        { b with send_max := b.l + 0,
                 flags := { b.flags with
                   out_empty := if b.l + 0 ≠ 0 then false
                                else if b.send_max + (b.l - b.send_max) ≠ 0
                                then false else b.flags.out_empty,
                   full := if b.l < b.max_len then false else true },
                 to_forward := b.to_forward + k - (b.l - b.send_max) + m - 0 } := by
      rw [e1]
      simp only [buffer_forward, if_neg hm, hl1, hdl2,
                 if_neg (by omega : ¬(m ≤ 0)), if_neg hminf, if_neg htf1, hnf2,
                 if_neg (by omega : ¬(b.to_forward + k - (b.l - b.send_max) + m - 0 ≤
                   b.to_forward + k - (b.l - b.send_max))),
                 if_pos (by omega : b.to_forward + k - (b.l - b.send_max) <
                   b.to_forward + k - (b.l - b.send_max) + m - 0)]
    have e3 : (buffer_forward b (k + m)).1 =
        { b with send_max := b.send_max + (b.l - b.send_max),
                 flags := { b.flags with
                   out_empty := if b.send_max + (b.l - b.send_max) ≠ 0
                                then false else b.flags.out_empty,
                   full := if b.l < b.max_len then false else true },
                 to_forward := b.to_forward + (k + m) - (b.l - b.send_max) } := by
      simp only [buffer_forward, if_neg (by omega : ¬(k + m = 0)), hdl,
                 if_neg (by omega : ¬(k + m ≤ b.l - b.send_max)),
                 if_neg hkminf, if_neg htfinf, hnf3,
                 if_neg (by omega : ¬(b.to_forward + (k + m) - (b.l - b.send_max) ≤ b.to_forward)),
                 if_pos (by omega : b.to_forward < b.to_forward + (k + m) - (b.l - b.send_max))]
    rw [e2, e3]
    refine ⟨by simp; omega, by simp; omega, ?_⟩
    simp only [BufFlags.mk.injEq]
    split_ifs <;> simp_all

/-- Witness for C5 at a concrete buffer and byte counts crossing the pending
data boundary. -/
theorem C5_buffer_forward_compose_witness :
    (wbuf.send_max ≤ wbuf.l ∧ wbuf.l < 2 ^ 32 ∧ wbuf.to_forward + 4 + 9 < 2 ^ 31) ∧
    ((buffer_forward (buffer_forward wbuf 4).1 9).1.send_max =
       (buffer_forward wbuf (4 + 9)).1.send_max ∧
     (buffer_forward (buffer_forward wbuf 4).1 9).1.to_forward =
       (buffer_forward wbuf (4 + 9)).1.to_forward ∧
     (buffer_forward (buffer_forward wbuf 4).1 9).1.flags =
       (buffer_forward wbuf (4 + 9)).1.flags) :=
  ⟨⟨by decide, by decide, by decide⟩,
   C5_buffer_forward_compose wbuf 4 9 (by decide) (by decide) (by decide)⟩

end Muppet

namespace Muppet

/-- Ring successor of an offset, as stepped by the peek loop. -/
def ringNext (size p : Nat) : Nat := if p + 1 = size then 0 else p + 1

/-- Ring offset reached after j steps from p. -/
def ringPos (size p : Nat) : Nat → Nat
  | 0 => p
  | j + 1 => ringPos size (ringNext size p) j

theorem peekline_loop_len_le (data : List Char) (size : Nat) :
    ∀ m p, (peekline_loop data size m p).length ≤ m := by
  intro m
  induction m with
  | zero => intro p; simp [peekline_loop]
  | succ n ih =>
    intro p
    simp only [peekline_loop]
    split_ifs
    · simp
    all_goals
      simp only [List.length_cons]
      first
        | exact Nat.succ_le_succ (ih 0)
        | exact Nat.succ_le_succ (ih (p + 1))

theorem peekline_loop_pos (data : List Char) (size m p : Nat)
    (hm : 1 ≤ m) : 1 ≤ (peekline_loop data size m p).length := by
  obtain ⟨n, rfl⟩ : ∃ n, m = n + 1 := ⟨m - 1, by omega⟩
  simp only [peekline_loop]
  split_ifs <;> simp

theorem getLast?_cons_of_getLast? {α : Type} {l : List α} {x : α} (c : α)
    (h : l.getLast? = some x) : (c :: l).getLast? = some x := by
  cases l with
  | nil => simp at h
  | cons a t => rw [List.getLast?_cons_cons]; exact h

theorem peekline_loop_full_or_nl (data : List Char) (size : Nat) :
    ∀ m p, (peekline_loop data size m p).length = m ∨
      (peekline_loop data size m p).getLast? = some '\n' := by
  intro m
  induction m with
  | zero => intro p; left; simp [peekline_loop]
  | succ n ih =>
    intro p
    simp only [peekline_loop]
    split_ifs with hc hp
    · right; simp only [List.getLast?_singleton, hc]
    · rcases ih 0 with h | h
      · left; simp [h]
      · right; exact getLast?_cons_of_getLast? _ h
    · rcases ih (p + 1) with h | h
      · left; simp [h]
      · right; exact getLast?_cons_of_getLast? _ h

theorem peekline_loop_nl (data : List Char) (size : Nat) :
    ∀ m p, (∃ j, j < m ∧ data.getD (ringPos size p j) (Char.ofNat 0) = '\n') →
      (peekline_loop data size m p).getLast? = some '\n' := by
  intro m
  induction m with
  | zero => rintro p ⟨j, hj, _⟩; omega
  | succ n ih =>
    rintro p ⟨j, hj, hnl⟩
    simp only [peekline_loop]
    split_ifs with hc hp
    · simp only [List.getLast?_singleton, hc]
    · cases j with
      | zero => simp only [ringPos] at hnl; exact absurd hnl hc
      | succ j' =>
        apply getLast?_cons_of_getLast?
        apply ih 0
        refine ⟨j', by omega, ?_⟩
        have he : ringPos size p (j' + 1) = ringPos size 0 j' := by
          simp [ringPos, ringNext, hp]
        rwa [he] at hnl
    · cases j with
      | zero => simp only [ringPos] at hnl; exact absurd hnl hc
      | succ j' =>
        apply getLast?_cons_of_getLast?
        apply ih (p + 1)
        refine ⟨j', by omega, ?_⟩
        have he : ringPos size p (j' + 1) = ringPos size (p + 1) j' := by
          simp [ringPos, ringNext, hp]
        rwa [he] at hnl

end Muppet

namespace Muppet

/-- C8 (amended).  buffer_si_peekline returns a negative value iff the
committed output is empty and the output side is shut; 0 iff the committed
output is empty and the output side is not shut; and a positive count
whenever committed output is present (capacity ≥ 1), the copied chunk ending
with the newline whenever one lies within both the capacity and send_max;
the buffer itself is not modified (the embedding returns only the count and
the copied bytes). -/
theorem C8_buffer_si_peekline_amended (b : Buffer) (cap : Nat) (hcap : 1 ≤ cap) :
    ((b.send_max = 0 ∧ (b.flags.shutw || b.flags.shutw_now) = true) →
        (buffer_si_peekline b cap).1 < 0) ∧
    ((b.send_max = 0 ∧ (b.flags.shutw || b.flags.shutw_now) = false) →
        (buffer_si_peekline b cap).1 = 0) ∧
    (1 ≤ b.send_max → 0 < (buffer_si_peekline b cap).1) ∧
    (1 ≤ b.send_max →
      (∃ j, j < min cap b.send_max ∧
         b.data.getD (ringPos b.size b.w j) (Char.ofNat 0) = '\n') →
      (buffer_si_peekline b cap).2.getLast? = some '\n') := by
  by_cases hz : b.send_max = 0
  · refine ⟨?_, ?_, ?_, ?_⟩
    · rintro ⟨-, hs⟩
      simp [buffer_si_peekline, hz, hs]
    · rintro ⟨-, hs⟩
      simp [buffer_si_peekline, hz, hs]
    · intro h; omega
    · intro h; omega
  · have hs1 : 1 ≤ b.send_max := by omega
    have hmx1 : 1 ≤ (if b.send_max < cap then b.send_max else cap) := by
      split_ifs <;> omega
    have hmxmin : (if b.send_max < cap then b.send_max else cap) = min cap b.send_max := by
      split_ifs <;> omega
    have hpos := peekline_loop_pos b.data b.size
      (if b.send_max < cap then b.send_max else cap) b.w hmx1
    have hfull := peekline_loop_full_or_nl b.data b.size
      (if b.send_max < cap then b.send_max else cap) b.w
    have hguard : ¬(0 < (peekline_loop b.data b.size
          (if b.send_max < cap then b.send_max else cap) b.w).length ∧
        (peekline_loop b.data b.size
          (if b.send_max < cap then b.send_max else cap) b.w).length < cap ∧
        (peekline_loop b.data b.size
          (if b.send_max < cap then b.send_max else cap) b.w).length < b.send_max ∧
        (peekline_loop b.data b.size
          (if b.send_max < cap then b.send_max else cap) b.w).getLast? ≠ some '\n' ∧
        (b.flags.shutw || b.flags.shutw_now) = false) := by
      rintro ⟨h1, h2, h3, h4, h5⟩
      rcases hfull with h | h
      · rcases Nat.lt_or_ge b.send_max cap with hcc | hcc
        · rw [if_pos hcc] at h h2 h3; omega
        · rw [if_neg (by omega : ¬b.send_max < cap)] at h h2 h3; omega
      · exact h4 h
    refine ⟨?_, ?_, ?_, ?_⟩
    · rintro ⟨h0, -⟩; exact absurd h0 hz
    · rintro ⟨h0, -⟩; exact absurd h0 hz
    · intro _
      simp only [buffer_si_peekline, hz, if_false, if_neg hguard]
      exact Int.ofNat_pos.mpr hpos
    · intro _ hex
      simp only [buffer_si_peekline, hz, if_false]
      apply peekline_loop_nl
      rwa [hmxmin]

/-- Concrete buffer for the C8 counterexample: two committed bytes "X\n"
with the output side shut. -/
def pbufA : Buffer :=
  ⟨4, [ 'X', '\n', ' ', ' ' ], 2, 2, 0, 0, 2, 0, 2, 4, 0, 0,
   ⟨false, false, false, false, true, false, false, false, false, false,
    false, false, false⟩⟩

/-- Concrete buffer for the C8 counterexample: one committed byte "X", no
newline anywhere, buffer neither full nor shut. -/
def pbufB : Buffer :=
  ⟨4, [ 'X', ' ', ' ', ' ' ], 1, 1, 0, 0, 1, 0, 1, 4, 0, 0,
   ⟨false, false, false, false, false, false, false, false, false, false,
    false, false, false⟩⟩

/-- C8 counterexample.  The claim "a negative value whenever the output side
is shut" fails on pbufA (shut, yet the call returns the positive count 2),
and the claim "0 when no newline has arrived yet and neither the buffer nor
the output side is full nor shut" fails on pbufB (no newline, not full, not
shut, yet the call returns 1, the whole committed chunk). -/
theorem C8_buffer_si_peekline_counterexample :
    (pbufA.flags.shutw = true ∧ 0 < (buffer_si_peekline pbufA 10).1) ∧
    (pbufB.flags.full = false ∧ pbufB.flags.shutw = false ∧
     pbufB.flags.shutw_now = false ∧ pbufB.flags.shutr = false ∧
     (∀ j, j < pbufB.l → pbufB.data.getD j ' ' ≠ '\n') ∧
     (buffer_si_peekline pbufB 10).1 = 1) := by decide

/-- Witness for C8 (amended) at the concrete buffer pbufA with capacity 10. -/
theorem C8_buffer_si_peekline_amended_witness :
    1 ≤ 10 ∧
    (((pbufA.send_max = 0 ∧ (pbufA.flags.shutw || pbufA.flags.shutw_now) = true) →
        (buffer_si_peekline pbufA 10).1 < 0) ∧
     ((pbufA.send_max = 0 ∧ (pbufA.flags.shutw || pbufA.flags.shutw_now) = false) →
        (buffer_si_peekline pbufA 10).1 = 0) ∧
     (1 ≤ pbufA.send_max → 0 < (buffer_si_peekline pbufA 10).1) ∧
     (1 ≤ pbufA.send_max →
       (∃ j, j < min 10 pbufA.send_max ∧
          pbufA.data.getD (ringPos pbufA.size pbufA.w j) (Char.ofNat 0) = '\n') →
       (buffer_si_peekline pbufA 10).2.getLast? = some '\n')) :=
  ⟨by decide, C8_buffer_si_peekline_amended pbufA 10 (by decide)⟩

end Muppet

namespace Muppet

/-- Stream interface states (SI_ST_*, spec 4.2). -/
inductive SIState
  | ini | req | que | tar | ass | con | cer | est | dis | clo
deriving DecidableEq, Repr

/-- Stream interface error types (SI_ET_*); et_none is SI_ET_NONE. -/
inductive SIErrType
  | et_none | conn_err | conn_to | conn_abrt | conn_other
deriving DecidableEq, Repr

/-- struct stream_interface, restricted to the fields the embedded
session.c functions read or write; fl_err is the SI_FL_ERR bit. -/
structure StreamInterface where
  state : SIState
  prev_state : SIState
  err_type : SIErrType
  err_loc : Option Nat
  fl_err : Bool
  fl_nolinger : Bool
  exp : Nat
deriving DecidableEq, Repr

/-- Session flag bits (SN_*; the numeric values live in types/session.h
outside the vendored sources, so each bit is a named boolean). -/
structure SessFlags where
  direct : Bool
  assigned : Bool
  addr_set : Bool
  force_prst : Bool
  curr_sess : Bool
  frt_addr_set : Bool
deriving DecidableEq, Repr

/-- Session termination error class (SN_ERR_MASK values, spec 6). -/
inductive TermErr
  | te_none | clicl | srvcl | clito | srvto | prxcond | resource | internal
deriving DecidableEq, Repr

/-- Session termination finish stage (SN_FINST_MASK values, spec 6). -/
inductive FinStage
  | fs_none | fs_r | fs_q | fs_c | fs_h | fs_d | fs_l
deriving DecidableEq, Repr

/-- Per-proxy / per-listener counters used by the embedded functions. -/
structure Counters where
  failed_conns : Nat
  failed_req : Nat
  denied_req : Nat
  retries : Nat
deriving DecidableEq, Repr

/-- struct server, restricted to the fields the embedded functions use.
addr_family/addr_saddr/addr_port are the raw sockaddr_in fields as stored
(s_addr and sin_port keep their stored byte-order value); running is the
SRV_RUNNING state bit. -/
structure Server where
  id : Nat
  addr_family : Nat
  addr_saddr : Nat
  addr_port : Nat
  running : Bool
  cur_sess : Nat
  counters_failed_conns : Nat
  counters_retries : Nat
deriving DecidableEq, Repr

/-- AF_INET address family constant (POSIX value 2). -/
def AF_INET : Nat := 2

/-- A sockaddr slot of the session (cli_addr / frt_addr).  The embedded
decoder stores the parsed host-order address and port (the C code applies
htonl/htons for the wire representation of the same values). -/
inductive SockAddr
  | v4 (addr : Nat) (port : Nat)
  | v6 (addr : Nat) (port : Nat)
  | unset
deriving DecidableEq, Repr

/-- struct session, restricted to the fields the embedded functions read or
write.  Pointer fields of the C struct become the data they reference:
be_* and fe_* are the backend/frontend fields consumed here,
listener_counters is None when the listener has no counters, and
srv_error_set records whether the srv_error hook pointer is installed. -/
structure Session where
  flags : SessFlags
  term_err : TermErr
  fin_stage : FinStage
  conn_retries : Int
  srv : Option Server
  prev_srv : Option Server
  srv_conn : Option Nat
  srv_error_set : Bool
  be_options_redisp : Bool
  be_options_persist : Bool
  be_rdp_cookie_name : List Char
  be_rdp_cookie_len : Nat
  be_servers : List Server
  be_counters : Counters
  fe_counters : Counters
  listener_counters : Option Counters
  fe_inspect_delay : Nat
  cli_addr : SockAddr
  frt_addr : SockAddr
  req : Buffer
  rep : Buffer
deriving DecidableEq, Repr

/-- Modelled from the spec: sess_change_server (declared in
include/proto/session.h, body outside the vendored sources) rebinds the
per-server connection accounting used by the queue machinery (the srv_conn
back pointer).  It does not modify s->srv: the callers in src/session.c
(lines 267-269, 290-292 and 988-990) still pass s->srv to
may_dequeue_tasks/process_srv_queue right after sess_change_server(s, NULL),
and sess_update_st_cer saves s->srv into s->prev_srv after the call. -/
def sess_change_server (s : Session) (newsrv : Option Nat) : Session :=
  { s with srv_conn := newsrv }

/-- Result of sess_update_st_cer: updated session and stream interface plus
the recorded function-pointer calls (si->shutw and s->srv_error). -/
structure CerResult where
  s : Session
  si : StreamInterface
  shutwCalled : Bool
  srvErrorCalled : Bool
deriving DecidableEq, Repr

/-- src/session.c:244 sess_update_st_cer — handle a failed connection
attempt on the server stream interface (state CER).  si->ob / si->ib are the
session's req / rep buffers (the function runs on si[1]).  External helpers
without modelled state (health_adjust, may_dequeue_tasks,
process_srv_queue) are elided; si->shutw and s->srv_error are function
pointers, recorded as the shutwCalled / srvErrorCalled events, shutw also
setting the SHUTW flag on its output buffer (Modelled from the spec:
"shutr/shutw — set shutdown flags on the attached buffer").  nowMs is the
global now_ms clock. -/
def sess_update_st_cer (nowMs : Nat) (s0 : Session) (si0 : StreamInterface) : CerResult :=
  let s1 : Session :=
    match s0.srv with
    | some srv =>
      if s0.flags.curr_sess then
        { s0 with flags := { s0.flags with curr_sess := false },
                  srv := some { srv with cur_sess := srv.cur_sess - 1 } }
      else s0
    | none => s0
  let s2 := { s1 with conn_retries := s1.conn_retries - 1 }
  if s2.conn_retries < 0 then
    let si1 : StreamInterface :=
      if si0.err_type = SIErrType.et_none then
        { si0 with err_type := SIErrType.conn_err,
                   err_loc := s2.srv.map Server.id }
      else si0
    let s3 : Session :=
      match s2.srv with
      | some srv =>
        { s2 with srv := some { srv with
                    counters_failed_conns := srv.counters_failed_conns + 1 } }
      | none => s2
    let s4 := { s3 with be_counters := { s3.be_counters with
                  failed_conns := s3.be_counters.failed_conns + 1 } }
    let s5 := sess_change_server s4 none
    let s6 := { s5 with
      req := { s5.req with flags := { s5.req.flags with shutw := true, write_error := true } },
      rep := { s5.rep with flags := { s5.rep.flags with read_error := true } } }
    let si2 := { si1 with state := SIState.clo }
    ⟨s6, si2, true, s6.srv_error_set⟩
  else
    let branch : Session × StreamInterface :=
      if s2.srv.isSome && decide (s2.conn_retries = 0) && s2.be_options_redisp &&
         !s2.flags.force_prst then
        let s3 := sess_change_server s2 none
        let s4 := { s3 with
          flags := { s3.flags with direct := false, assigned := false, addr_set := false },
          prev_srv := s3.srv }
        (s4, { si0 with state := SIState.req })
      else
        let s3 : Session :=
          match s2.srv with
          | some srv =>
            { s2 with srv := some { srv with counters_retries := srv.counters_retries + 1 } }
          | none => s2
        let s4 := { s3 with be_counters := { s3.be_counters with
                      retries := s3.be_counters.retries + 1 } }
        (s4, { si0 with state := SIState.ass })
    let s' := branch.1
    let si' := branch.2
    if si'.fl_err then
      let si2 : StreamInterface :=
        { si' with
          err_type := if si'.err_type = SIErrType.et_none then SIErrType.conn_err
                      else si'.err_type,
          state := SIState.tar,
          exp := nowMs + 1000 }
      ⟨s', si2, false, false⟩
    else
      ⟨s', si', false, false⟩

end Muppet

namespace Muppet

/-- A concrete running server. -/
def csrv : Server := ⟨7, AF_INET, 0x0A000001, 80, true, 1, 0, 0⟩

/-- A concrete session entering the retry logic: one retry left, redispatch
enabled on the backend, persistence not forced. -/
def cses : Session :=
  ⟨⟨true, true, true, false, false, false⟩, TermErr.te_none, FinStage.fs_none,
   1, some csrv, none, some 7, true, true, false, [], 0, [ csrv ], ⟨0, 0, 0, 0⟩,
   ⟨0, 0, 0, 0⟩, none, 0, SockAddr.unset, SockAddr.unset, wbuf, wbuf⟩

/-- The server stream interface of cses, in state CER without async error. -/
def csi : StreamInterface :=
  ⟨SIState.cer, SIState.con, SIErrType.et_none, none, false, false, 0⟩

/-- The same interface with the SI_FL_ERR asynchronous error bit set. -/
def csiErr : StreamInterface :=
  ⟨SIState.cer, SIState.con, SIErrType.et_none, none, true, false, 0⟩

/-- C2 counterexample.  On a session taking the last-retry redispatch branch
(retries left, redispatch set, persistence not forced, a server assigned),
sess_update_st_cer does not revert srv to null — it saves it into prev_srv
and leaves srv assigned — and when the interface carries the asynchronous
error flag the final state is TAR, not REQ. -/
theorem C2_sess_update_st_cer_counterexample :
    (cses.conn_retries = 1 ∧ cses.srv.isSome = true ∧
     cses.be_options_redisp = true ∧ cses.flags.force_prst = false ∧
     ¬(sess_update_st_cer 0 cses csi).s.srv = none ∧
     (sess_update_st_cer 0 cses csi).si.state = SIState.req) ∧
    ((sess_update_st_cer 0 cses csiErr).si.state = SIState.tar) := by decide

set_option maxHeartbeats 4000000 in
/-- C2 (amended).  sess_update_st_cer decrements the retry counter exactly
once; if the counter then is negative it increments failed_conns on the
server (if any) and on the backend, runs the installed server-error hook and
moves the interface to CLO; if retries remain and this is the last retry
with the backend's redispatch option set and persistence not forced (and a
server assigned), it clears the DIRECT, ASSIGNED and ADDR_SET session flags,
saves srv into prev_srv leaving srv itself in place, and moves the interface
to REQ — unless the interface carries the asynchronous-error flag, in which
case it moves to TAR with a one-second back-off instead. -/
theorem C2_sess_update_st_cer_amended (nowMs : Nat) (s : Session)
    (si : StreamInterface) :
    (sess_update_st_cer nowMs s si).s.conn_retries = s.conn_retries - 1 ∧
    (s.conn_retries - 1 < 0 →
      (sess_update_st_cer nowMs s si).s.be_counters.failed_conns =
        s.be_counters.failed_conns + 1 ∧
      (sess_update_st_cer nowMs s si).s.srv.map (fun v => v.counters_failed_conns) =
        s.srv.map (fun v => v.counters_failed_conns + 1) ∧
      (sess_update_st_cer nowMs s si).srvErrorCalled = s.srv_error_set ∧
      (sess_update_st_cer nowMs s si).si.state = SIState.clo) ∧
    (0 ≤ s.conn_retries - 1 → s.conn_retries - 1 = 0 → s.srv.isSome = true →
     s.be_options_redisp = true → s.flags.force_prst = false →
      (sess_update_st_cer nowMs s si).s.flags.direct = false ∧
      (sess_update_st_cer nowMs s si).s.flags.assigned = false ∧
      (sess_update_st_cer nowMs s si).s.flags.addr_set = false ∧
      (sess_update_st_cer nowMs s si).s.prev_srv.map Server.id = s.srv.map Server.id ∧
      (sess_update_st_cer nowMs s si).s.srv.map Server.id = s.srv.map Server.id ∧
      (si.fl_err = false → (sess_update_st_cer nowMs s si).si.state = SIState.req) ∧
      (si.fl_err = true → (sess_update_st_cer nowMs s si).si.state = SIState.tar ∧
        (sess_update_st_cer nowMs s si).si.exp = nowMs + 1000)) := by
  rcases hsrv : s.srv with - | srv <;>
    by_cases hcs : s.flags.curr_sess = true <;>
    by_cases hneg : s.conn_retries - 1 < 0 <;>
    by_cases herr : si.fl_err = true <;>
    by_cases hz : s.conn_retries - 1 = 0 <;>
    by_cases hrd : s.be_options_redisp = true <;>
    by_cases hfp : s.flags.force_prst = true <;>
    simp [sess_update_st_cer, sess_change_server, hsrv, hcs, hneg, herr, hz, hrd, hfp]

end Muppet

namespace Muppet

/-- The concrete session cses on its very last retry (counter hits -1). -/
def csesX : Session := { cses with conn_retries := 0 }

/-- Witness for C2 (amended): the retry-exhausted branch at csesX and the
last-retry redispatch branch at cses. -/
theorem C2_sess_update_st_cer_amended_witness :
    (csesX.conn_retries - 1 < 0 ∧
     (sess_update_st_cer 5 csesX csi).s.be_counters.failed_conns =
       csesX.be_counters.failed_conns + 1 ∧
     (sess_update_st_cer 5 csesX csi).s.srv.map (fun v => v.counters_failed_conns) =
       csesX.srv.map (fun v => v.counters_failed_conns + 1) ∧
     (sess_update_st_cer 5 csesX csi).srvErrorCalled = csesX.srv_error_set ∧
     (sess_update_st_cer 5 csesX csi).si.state = SIState.clo) ∧
    (0 ≤ cses.conn_retries - 1 ∧
     (sess_update_st_cer 5 cses csi).s.flags.direct = false ∧
     (sess_update_st_cer 5 cses csi).s.prev_srv.map Server.id = cses.srv.map Server.id ∧
     (sess_update_st_cer 5 cses csi).si.state = SIState.req) :=
  ⟨⟨by decide, ((C2_sess_update_st_cer_amended 5 csesX csi).2.1 (by decide)).1,
    ((C2_sess_update_st_cer_amended 5 csesX csi).2.1 (by decide)).2.1,
    ((C2_sess_update_st_cer_amended 5 csesX csi).2.1 (by decide)).2.2.1,
    ((C2_sess_update_st_cer_amended 5 csesX csi).2.1 (by decide)).2.2.2⟩,
   ⟨by decide,
    ((C2_sess_update_st_cer_amended 5 cses csi).2.2 (by decide) (by decide) (by decide)
        (by decide) (by decide)).1,
    ((C2_sess_update_st_cer_amended 5 cses csi).2.2 (by decide) (by decide) (by decide)
        (by decide) (by decide)).2.2.2.1,
    (((C2_sess_update_st_cer_amended 5 cses csi).2.2 (by decide) (by decide) (by decide)
        (by decide) (by decide)).2.2.2.2.2.1) (by decide)⟩⟩

end Muppet

namespace Muppet

/-- Modelled from the spec: the tri-state ACL result encoding (types/acl.h
is outside the vendored sources).  FAIL=0, MISS=1, PASS=3 make the bitwise
or/and used by acl.c implement the three-valued disjunction/conjunction the
spec describes ("A single PASS short-circuits a suite; a single FAIL
short-circuits a condition's AND", MISS propagation). -/
def ACL_PAT_FAIL : Nat := 0

/-- The MISS value of the tri-state ACL result encoding. -/
def ACL_PAT_MISS : Nat := 1

/-- The PASS value of the tri-state ACL result encoding. -/
def ACL_PAT_PASS : Nat := 3

/-- Modelled from the spec: acl_neg (proto/acl.h outside the vendored
sources) — negation swaps PASS and FAIL and preserves MISS. -/
def acl_neg (r : Nat) : Nat :=
  if r = ACL_PAT_PASS then ACL_PAT_FAIL
  else if r = ACL_PAT_FAIL then ACL_PAT_PASS
  else r

/-- Modelled from the spec: acl_pass (proto/acl.h outside the vendored
sources) — a result counts as a pass exactly when it is PASS. -/
def acl_pass (r : Nat) : Bool := (r &&& 2) ≠ 0

/-- The ACL direction argument: base direction plus the ACL_PARTIAL bit
(partialBit; data may still be incomplete). -/
structure AclDir where
  rtr : Bool
  partialBit : Bool
deriving DecidableEq, Repr

/-- struct acl_test flag bits as set by fetch functions. -/
structure AclTestFlags where
  mayChange : Bool
  resSet : Bool
  resPass : Bool
  fetchMore : Bool
  nullMatch : Bool
  mustFree : Bool
  volatileFlag : Bool
deriving DecidableEq, Repr

/-- struct acl_test: the flag word plus the sampled value (abstract type α,
absent when the fetch produced no sample). -/
structure AclTest (α : Type) where
  flags : AclTestFlags
  value : Option α
deriving DecidableEq, Repr

/-- Result of one fetch call: the C return value (ok = nonzero) and the
test structure it filled in. -/
structure FetchResult (α : Type) where
  ok : Bool
  t : AclTest α
deriving DecidableEq, Repr

/-- Which match function the keyword uses; acl_exec_cond compares the match
pointer against acl_match_str / acl_match_ip to pick a tree lookup. -/
inductive MatchKind
  | mstr | mip | mother
deriving DecidableEq, Repr

/-- struct acl_keyword: the fetch and match function pointers.  fetch takes
the fetch-round index (the FETCH_MORE re-entry counter; round 0 is the
memset-fresh test) and the direction; matchf returns a tri-state result
(the real match functions return only PASS or FAIL, stated as a hypothesis
where needed). -/
structure AclKeyword (α β : Type) where
  fetch : Nat → AclDir → FetchResult α
  matchf : AclTest α → Option β → Nat
  matchKind : MatchKind

/-- struct acl_expr: keyword, ordered pattern list and optional pattern
tree; the ebtree lookups acl_lookup_str/acl_lookup_ip are abstracted as
boolean functions since acl_exec_cond immediately coerces their result to
PASS/FAIL. -/
structure AclExpr (α β : Type) where
  kw : AclKeyword α β
  patterns : List β
  treeNonEmpty : Bool
  treeLookupStr : AclTest α → Bool
  treeLookupIp : AclTest α → Bool

/-- struct acl: a named ACL is a list of expressions. -/
structure Acl (α β : Type) where
  exprs : List (AclExpr α β)

/-- struct acl_term: an ACL reference with optional negation. -/
structure AclTerm (α β : Type) where
  acl : Acl α β
  neg : Bool

/-- struct acl_term_suite: a conjunction of terms. -/
structure AclTermSuite (α β : Type) where
  terms : List (AclTerm α β)

/-- Condition polarity (ACL_COND_IF / ACL_COND_UNLESS). -/
inductive CondPol
  | cif | cunless
deriving DecidableEq, Repr

/-- struct acl_cond: a disjunction of term suites plus the polarity applied
by the caller. -/
structure AclCond (α β : Type) where
  suites : List (AclTermSuite α β)
  pol : CondPol

/-- The inner pattern loop of acl_exec_cond (src/acl.c:1363-1367): OR the
match result of each pattern into the accumulator, stopping at the first
PASS. -/
def acl_match_patterns {α β : Type} (mf : AclTest α → Option β → Nat)
    (t : AclTest α) : Nat → List β → Nat
  | acc, [] => acc
  | acc, p :: ps =>
    if acc = ACL_PAT_PASS then acc
    else acl_match_patterns mf t (acc ||| mf t (some p)) ps

/-- The result accumulation for one successful fetch of acl_exec_cond
(src/acl.c:1347-1372): an explicitly set result, or the tree lookup
followed by the pattern list, followed by the NULL_MATCH call. -/
def acl_expr_one_result {α β : Type} (e : AclExpr α β) (t : AclTest α)
    (acc : Nat) : Nat :=
  if t.flags.resSet then
    if t.flags.resPass then acc ||| ACL_PAT_PASS else acc ||| ACL_PAT_FAIL
  else
    let acc1 :=
      if e.treeNonEmpty then
        match e.kw.matchKind with
        | MatchKind.mstr =>
          acc ||| (if e.treeLookupStr t then ACL_PAT_PASS else ACL_PAT_FAIL)
        | MatchKind.mip =>
          acc ||| (if e.treeLookupIp t then ACL_PAT_PASS else ACL_PAT_FAIL)
        | MatchKind.mother => acc
      else acc
    let acc2 := acl_match_patterns e.kw.matchf t acc1 e.patterns
    if t.flags.nullMatch && e.patterns.isEmpty && !e.treeNonEmpty then
      acc2 ||| e.kw.matchf t none
    else acc2

/-- One expression of acl_exec_cond (src/acl.c:1336-1403) starting at fetch
round `round` with accumulator `acc`; the fuel bounds the FETCH_MORE
re-entry loop (the C code loops as long as the fetch keeps returning
FETCH_MORE; none = that loop did not terminate within the fuel). -/
def acl_eval_expr {α β : Type} (dir : AclDir) (e : AclExpr α β) :
    Nat → Nat → Nat → Option Nat
  | 0, _, _ => none
  | fuel + 1, round, acc =>
    let fr := e.kw.fetch round dir
    if fr.ok = false then
      if fr.t.flags.mayChange && dir.partialBit then some (acc ||| ACL_PAT_MISS)
      else some acc
    else
      let acc' := acl_expr_one_result e fr.t acc
      if acc' = ACL_PAT_PASS then some acc'
      else if fr.t.flags.fetchMore then acl_eval_expr dir e fuel (round + 1) acc'
      else if fr.t.flags.mayChange && dir.partialBit then some (acc' ||| ACL_PAT_MISS)
      else some acc'

end Muppet

namespace Muppet

/-- The expression loop of acl_exec_cond (src/acl.c:1336): each expression
starts from a memset-fresh test (fetch round 0); a PASS accumulator breaks
out of the loop. -/
def acl_eval_exprs {α β : Type} (dir : AclDir) (fuel : Nat) :
    List (AclExpr α β) → Nat → Option Nat
  | [], acc => some acc
  | e :: es, acc =>
    match acl_eval_expr dir e fuel 0 acc with
    | none => none
    | some acc' =>
      if acc' = ACL_PAT_PASS then some acc'
      else acl_eval_exprs dir fuel es acc'

/-- The term loop of acl_exec_cond (src/acl.c:1325): AND the (possibly
negated) ACL results, stopping at the first FAIL. -/
def acl_eval_terms {α β : Type} (dir : AclDir) (fuel : Nat) :
    List (AclTerm α β) → Nat → Option Nat
  | [], suite_res => some suite_res
  | tm :: ts, suite_res =>
    match acl_eval_exprs dir fuel tm.acl.exprs ACL_PAT_FAIL with
    | none => none
    | some r =>
      let r' := if tm.neg then acl_neg r else r
      let suite_res' := suite_res &&& r'
      if suite_res' = ACL_PAT_FAIL then some suite_res'
      else acl_eval_terms dir fuel ts suite_res'

/-- The suite loop of acl_exec_cond (src/acl.c:1315): OR the suite results,
stopping at the first PASS. -/
def acl_eval_suites {α β : Type} (dir : AclDir) (fuel : Nat) :
    List (AclTermSuite α β) → Nat → Option Nat
  | [], cond_res => some cond_res
  | st :: ss, cond_res =>
    match acl_eval_terms dir fuel st.terms ACL_PAT_PASS with
    | none => none
    | some sr =>
      let cond_res' := cond_res ||| sr
      if cond_res' = ACL_PAT_PASS then some cond_res'
      else acl_eval_suites dir fuel ss cond_res'

/-- src/acl.c:1300 acl_exec_cond — evaluate a condition to FAIL, MISS or
PASS (polarity is applied by the caller).  The fuel bounds the FETCH_MORE
re-entry loops; none = such a loop did not terminate within the fuel. -/
def acl_exec_cond {α β : Type} (cond : AclCond α β) (dir : AclDir)
    (fuel : Nat) : Option Nat :=
  acl_eval_suites dir fuel cond.suites ACL_PAT_FAIL

end Muppet

namespace Muppet

/-- Legal tri-state results: FAIL and PASS always, MISS only when the
ACL_PARTIAL bit pb is set. -/
def ResOk (pb : Bool) (r : Nat) : Prop :=
  r = ACL_PAT_FAIL ∨ r = ACL_PAT_PASS ∨ (pb = true ∧ r = ACL_PAT_MISS)

instance (pb : Bool) (r : Nat) : Decidable (ResOk pb r) := by
  unfold ResOk; infer_instance

theorem resOk_or {pb : Bool} {a b : Nat} (ha : ResOk pb a) (hb : ResOk pb b) :
    ResOk pb (a ||| b) := by
  rcases ha with rfl | rfl | ⟨hp, rfl⟩ <;> rcases hb with rfl | rfl | ⟨hp2, rfl⟩ <;>
    first
      | exact Or.inl (by decide)
      | exact Or.inr (Or.inl (by decide))
      | exact Or.inr (Or.inr ⟨by assumption, by decide⟩)

theorem resOk_and {pb : Bool} {a b : Nat} (ha : ResOk pb a) (hb : ResOk pb b) :
    ResOk pb (a &&& b) := by
  rcases ha with rfl | rfl | ⟨hp, rfl⟩ <;> rcases hb with rfl | rfl | ⟨hp2, rfl⟩ <;>
    first
      | exact Or.inl (by decide)
      | exact Or.inr (Or.inl (by decide))
      | exact Or.inr (Or.inr ⟨by assumption, by decide⟩)

theorem resOk_neg {pb : Bool} {a : Nat} (ha : ResOk pb a) : ResOk pb (acl_neg a) := by
  rcases ha with rfl | rfl | ⟨hp, rfl⟩ <;>
    first
      | exact Or.inl (by decide)
      | exact Or.inr (Or.inl (by decide))
      | exact Or.inr (Or.inr ⟨by assumption, by decide⟩)

theorem resOk_fail {pb : Bool} : ResOk pb ACL_PAT_FAIL := Or.inl rfl

theorem resOk_pass {pb : Bool} : ResOk pb ACL_PAT_PASS := Or.inr (Or.inl rfl)

theorem resOk_match_patterns {α β : Type} {pb : Bool}
    (mf : AclTest α → Option β → Nat) (t : AclTest α)
    (hm : ∀ p, mf t p = ACL_PAT_FAIL ∨ mf t p = ACL_PAT_PASS) :
    ∀ ps acc, ResOk pb acc → ResOk pb (acl_match_patterns mf t acc ps) := by
  intro ps
  induction ps with
  | nil => intro acc hacc; simpa [acl_match_patterns] using hacc
  | cons p ps ih =>
    intro acc hacc
    simp only [acl_match_patterns]
    split_ifs with hp
    · exact hacc
    · apply ih
      apply resOk_or hacc
      rcases hm (some p) with h | h <;> rw [h]
      · exact resOk_fail
      · exact resOk_pass

end Muppet

namespace Muppet

theorem resOk_matchf_val {pb : Bool} {v : Nat}
    (h : v = ACL_PAT_FAIL ∨ v = ACL_PAT_PASS) : ResOk pb v := by
  rcases h with rfl | rfl
  · exact resOk_fail
  · exact resOk_pass

theorem resOk_one_result {α β : Type} {pb : Bool} (e : AclExpr α β)
    (t : AclTest α) (acc : Nat)
    (hm : ∀ t' p, e.kw.matchf t' p = ACL_PAT_FAIL ∨ e.kw.matchf t' p = ACL_PAT_PASS)
    (hacc : ResOk pb acc) : ResOk pb (acl_expr_one_result e t acc) := by
  have hx : ∀ p, e.kw.matchf t p = ACL_PAT_FAIL ∨ e.kw.matchf t p = ACL_PAT_PASS :=
    fun p => hm t p
  have hnone : ResOk pb (e.kw.matchf t none) := resOk_matchf_val (hm t none)
  unfold acl_expr_one_result
  split_ifs <;>
    rcases e.kw.matchKind <;>
    first
      | exact resOk_or hacc resOk_pass
      | exact resOk_or hacc resOk_fail
      | exact resOk_match_patterns e.kw.matchf t hx e.patterns _ (resOk_or hacc resOk_pass)
      | exact resOk_match_patterns e.kw.matchf t hx e.patterns _ (resOk_or hacc resOk_fail)
      | exact resOk_match_patterns e.kw.matchf t hx e.patterns _ hacc
      | exact resOk_or
          (resOk_match_patterns e.kw.matchf t hx e.patterns _ (resOk_or hacc resOk_pass)) hnone
      | exact resOk_or
          (resOk_match_patterns e.kw.matchf t hx e.patterns _ (resOk_or hacc resOk_fail)) hnone
      | exact resOk_or (resOk_match_patterns e.kw.matchf t hx e.patterns _ hacc) hnone

theorem resOk_eval_expr {α β : Type} (dir : AclDir) (e : AclExpr α β)
    (hm : ∀ t p, e.kw.matchf t p = ACL_PAT_FAIL ∨ e.kw.matchf t p = ACL_PAT_PASS) :
    ∀ fuel round acc res, ResOk dir.partialBit acc →
      acl_eval_expr dir e fuel round acc = some res →
      ResOk dir.partialBit res := by
  intro fuel
  induction fuel with
  | zero =>
    intro round acc res hacc h
    simp [acl_eval_expr] at h
  | succ n ih =>
    intro round acc res hacc h
    simp only [acl_eval_expr] at h
    by_cases hok : (e.kw.fetch round dir).ok = false
    · rw [if_pos hok] at h
      by_cases hmc : ((e.kw.fetch round dir).t.flags.mayChange && dir.partialBit) = true
      · rw [if_pos hmc] at h
        obtain rfl : acc ||| ACL_PAT_MISS = res := by injection h
        exact resOk_or hacc (Or.inr (Or.inr ⟨((Bool.and_eq_true _ _).mp hmc).2, rfl⟩))
      · rw [if_neg hmc] at h
        obtain rfl : acc = res := by injection h
        exact hacc
    · rw [if_neg hok] at h
      have hacc' : ResOk dir.partialBit
          (acl_expr_one_result e (e.kw.fetch round dir).t acc) :=
        resOk_one_result e _ acc hm hacc
      by_cases hpass : acl_expr_one_result e (e.kw.fetch round dir).t acc = ACL_PAT_PASS
      · rw [if_pos hpass] at h
        obtain rfl : acl_expr_one_result e (e.kw.fetch round dir).t acc = res := by
          injection h
        exact hacc'
      · rw [if_neg hpass] at h
        by_cases hfm : (e.kw.fetch round dir).t.flags.fetchMore = true
        · rw [if_pos hfm] at h
          exact ih _ _ _ hacc' h
        · rw [if_neg hfm] at h
          by_cases hmc : ((e.kw.fetch round dir).t.flags.mayChange && dir.partialBit) = true
          · rw [if_pos hmc] at h
            obtain rfl : acl_expr_one_result e (e.kw.fetch round dir).t acc |||
                ACL_PAT_MISS = res := by injection h
            exact resOk_or hacc' (Or.inr (Or.inr ⟨((Bool.and_eq_true _ _).mp hmc).2, rfl⟩))
          · rw [if_neg hmc] at h
            obtain rfl : acl_expr_one_result e (e.kw.fetch round dir).t acc = res := by
              injection h
            exact hacc'

end Muppet

namespace Muppet

theorem resOk_eval_exprs {α β : Type} (dir : AclDir) (fuel : Nat) :
    ∀ (es : List (AclExpr α β)) (acc res : Nat),
      (∀ e ∈ es, ∀ t p, e.kw.matchf t p = ACL_PAT_FAIL ∨ e.kw.matchf t p = ACL_PAT_PASS) →
      ResOk dir.partialBit acc →
      acl_eval_exprs dir fuel es acc = some res → ResOk dir.partialBit res := by
  intro es
  induction es with
  | nil =>
    intro acc res hm hacc h
    simp only [acl_eval_exprs, Option.some.injEq] at h
    exact h ▸ hacc
  | cons e es ih =>
    intro acc res hm hacc h
    simp only [acl_eval_exprs] at h
    cases heval : acl_eval_expr dir e fuel 0 acc with
    | none => rw [heval] at h; exact absurd h (by simp)
    | some v =>
      rw [heval] at h
      have hv : ResOk dir.partialBit v :=
        resOk_eval_expr dir e (hm e (by simp)) fuel 0 acc v hacc heval
      simp only at h
      by_cases hp : v = ACL_PAT_PASS
      · rw [if_pos hp] at h
        obtain rfl : v = res := by injection h
        exact hv
      · rw [if_neg hp] at h
        exact ih v res (fun e' he' => hm e' (by simp [he'])) hv h

theorem resOk_eval_terms {α β : Type} (dir : AclDir) (fuel : Nat) :
    ∀ (ts : List (AclTerm α β)) (acc res : Nat),
      (∀ tm ∈ ts, ∀ e ∈ tm.acl.exprs, ∀ t p,
        e.kw.matchf t p = ACL_PAT_FAIL ∨ e.kw.matchf t p = ACL_PAT_PASS) →
      ResOk dir.partialBit acc →
      acl_eval_terms dir fuel ts acc = some res → ResOk dir.partialBit res := by
  intro ts
  induction ts with
  | nil =>
    intro acc res hm hacc h
    simp only [acl_eval_terms, Option.some.injEq] at h
    exact h ▸ hacc
  | cons tm ts ih =>
    intro acc res hm hacc h
    simp only [acl_eval_terms] at h
    cases heval : acl_eval_exprs dir fuel tm.acl.exprs ACL_PAT_FAIL with
    | none => rw [heval] at h; exact absurd h (by simp)
    | some v =>
      rw [heval] at h
      have hv : ResOk dir.partialBit v :=
        resOk_eval_exprs dir fuel tm.acl.exprs ACL_PAT_FAIL v
          (fun e he => hm tm (by simp) e he) resOk_fail heval
      have hv' : ResOk dir.partialBit (if tm.neg then acl_neg v else v) := by
        split_ifs
        · exact resOk_neg hv
        · exact hv
      have hand : ResOk dir.partialBit (acc &&& (if tm.neg then acl_neg v else v)) :=
        resOk_and hacc hv'
      simp only at h
      by_cases hf : acc &&& (if tm.neg then acl_neg v else v) = ACL_PAT_FAIL
      · rw [if_pos hf] at h
        obtain rfl : acc &&& (if tm.neg then acl_neg v else v) = res := by injection h
        exact hand
      · rw [if_neg hf] at h
        exact ih _ res (fun tm' htm' => hm tm' (by simp [htm'])) hand h

theorem resOk_eval_suites {α β : Type} (dir : AclDir) (fuel : Nat) :
    ∀ (ss : List (AclTermSuite α β)) (acc res : Nat),
      (∀ st ∈ ss, ∀ tm ∈ st.terms, ∀ e ∈ tm.acl.exprs, ∀ t p,
        e.kw.matchf t p = ACL_PAT_FAIL ∨ e.kw.matchf t p = ACL_PAT_PASS) →
      ResOk dir.partialBit acc →
      acl_eval_suites dir fuel ss acc = some res → ResOk dir.partialBit res := by
  intro ss
  induction ss with
  | nil =>
    intro acc res hm hacc h
    simp only [acl_eval_suites, Option.some.injEq] at h
    exact h ▸ hacc
  | cons st ss ih =>
    intro acc res hm hacc h
    simp only [acl_eval_suites] at h
    cases heval : acl_eval_terms dir fuel st.terms ACL_PAT_PASS with
    | none => rw [heval] at h; exact absurd h (by simp)
    | some v =>
      rw [heval] at h
      have hv : ResOk dir.partialBit v :=
        resOk_eval_terms dir fuel st.terms ACL_PAT_PASS v
          (fun tm htm => hm st (by simp) tm htm) resOk_pass heval
      have hor : ResOk dir.partialBit (acc ||| v) := resOk_or hacc hv
      simp only at h
      by_cases hp : acc ||| v = ACL_PAT_PASS
      · rw [if_pos hp] at h
        obtain rfl : acc ||| v = res := by injection h
        exact hor
      · rw [if_neg hp] at h
        exact ih _ res (fun st' hst' => hm st' (by simp [hst'])) hor h

/-- The real acl_match_* functions return only PASS or FAIL; this predicate
states it for every keyword reachable from a condition. -/
def CondMatchTwoValued {α β : Type} (cond : AclCond α β) : Prop :=
  ∀ st ∈ cond.suites, ∀ tm ∈ st.terms, ∀ e ∈ tm.acl.exprs, ∀ t p,
    e.kw.matchf t p = ACL_PAT_FAIL ∨ e.kw.matchf t p = ACL_PAT_PASS

/-- C9.  Whenever acl_exec_cond terminates it returns one of PASS, FAIL or
MISS, and MISS is possible only when the direction argument carries the
ACL_PARTIAL bit: without it the result is always PASS or FAIL, negated
terms included. -/
theorem C9_acl_exec_cond_range {α β : Type} (cond : AclCond α β) (dir : AclDir)
    (fuel res : Nat) (hm : CondMatchTwoValued cond)
    (h : acl_exec_cond cond dir fuel = some res) :
    (res = ACL_PAT_FAIL ∨ res = ACL_PAT_MISS ∨ res = ACL_PAT_PASS) ∧
    (dir.partialBit = false → res = ACL_PAT_FAIL ∨ res = ACL_PAT_PASS) := by
  have hok : ResOk dir.partialBit res :=
    resOk_eval_suites dir fuel cond.suites ACL_PAT_FAIL res hm resOk_fail h
  constructor
  · rcases hok with hc | hc | ⟨hp, hc⟩
    · exact Or.inl hc
    · exact Or.inr (Or.inr hc)
    · exact Or.inr (Or.inl hc)
  · intro hpf
    rcases hok with hc | hc | ⟨hp, hc⟩
    · exact Or.inl hc
    · exact Or.inr hc
    · rw [hpf] at hp; exact absurd hp (by simp)

end Muppet

namespace Muppet

/-- A trivial always-FAIL keyword over Nat samples/patterns, used by the
witnesses. -/
def wkw : AclKeyword Nat Nat :=
  ⟨fun _ _ => ⟨true, ⟨⟨false, false, false, false, false, false, false⟩, none⟩⟩,
   fun _ _ => ACL_PAT_FAIL, MatchKind.mother⟩

/-- A witness expression with no patterns and no tree. -/
def wexpr : AclExpr Nat Nat := ⟨wkw, [], false, fun _ => false, fun _ => false⟩

/-- A witness condition: one suite containing one negated term over the
always-FAIL ACL (so the condition evaluates to PASS). -/
def wcond : AclCond Nat Nat := ⟨[⟨[⟨⟨[wexpr]⟩, true⟩]⟩], CondPol.cif⟩

/-- The non-partial request direction. -/
def wdir : AclDir := ⟨false, false⟩

theorem wcond_two_valued : CondMatchTwoValued wcond := by
  intro st hst tm htm e he t p
  simp only [wcond, List.mem_singleton] at hst
  subst hst
  simp only [List.mem_singleton] at htm
  subst htm
  simp only [List.mem_singleton] at he
  subst he
  exact Or.inl rfl

/-- Witness for C9 at the concrete condition wcond (one negated always-FAIL
term) under the non-partial direction. -/
theorem C9_acl_exec_cond_range_witness :
    CondMatchTwoValued wcond ∧
    acl_exec_cond wcond wdir 3 = some ACL_PAT_PASS ∧
    ((ACL_PAT_PASS = ACL_PAT_FAIL ∨ ACL_PAT_PASS = ACL_PAT_MISS ∨
      ACL_PAT_PASS = ACL_PAT_PASS) ∧
     (wdir.partialBit = false →
      ACL_PAT_PASS = ACL_PAT_FAIL ∨ ACL_PAT_PASS = ACL_PAT_PASS)) :=
  ⟨wcond_two_valued, by decide,
   C9_acl_exec_cond_range wcond wdir 3 ACL_PAT_PASS wcond_two_valued (by decide)⟩

/-- Modelled from the spec: the tick primitives of common/ticks.h (outside
the vendored sources).  Ticks are milliseconds, 0 is TICK_ETERNITY (unset);
wrap-around is not modelled. -/
def TICK_ETERNITY : Nat := 0

/-- Modelled from the spec: a tick is set when it is not TICK_ETERNITY. -/
def tick_isset (t : Nat) : Bool := t ≠ 0

/-- Modelled from the spec: a set tick is expired once the clock passed it. -/
def tick_is_expired (t now : Nat) : Bool := t ≠ 0 && t ≤ now

/-- Modelled from the spec: add a delay to the clock when the delay is set. -/
def tick_add_ifset (now d : Nat) : Nat := if d = 0 then 0 else now + d

/-- All bits of a 32-bit word. -/
def mask32 : Nat := 2 ^ 32 - 1

/-- x & ~y on 32-bit words (y < 2^32). -/
def andNot32 (x y : Nat) : Nat := x &&& (mask32 ^^^ y)

/-- Modelled from the spec: buffer_abort (proto/buffers.h outside the
vendored sources) — schedule an abort of both directions of the buffer:
raise SHUTR_NOW and SHUTW_NOW, drop AUTO_CONNECT, raise AUTO_CLOSE. -/
def buffer_abort (b : Buffer) : Buffer :=
  { b with flags :=
      { b.flags with shutr_now := true, shutw_now := true, auto_connect := false,
                     auto_close := true } }

/-- Modelled from the spec: buffer_dont_connect (proto/buffers.h outside
the vendored sources) — prevent automatic connection setup while waiting
for more data (drop AUTO_CONNECT). -/
def buffer_dont_connect (b : Buffer) : Buffer :=
  { b with flags := { b.flags with auto_connect := false } }

/-- tcp-request content rule actions (TCP_ACT_*). -/
inductive TcpAction
  | act_accept | act_reject
deriving DecidableEq, Repr

/-- struct tcp_rule: optional condition plus action. -/
structure TcpRule (α β : Type) where
  cond : Option (AclCond α β)
  action : TcpAction

/-- The accept exit of tcp_inspect_request (src/proto_tcp.c:714-716):
clear the analyser bit and the analyse deadline, return 1. -/
def inspect_accept (s : Session) (an_bit : Nat) : Session × Nat :=
  ({ s with req := { s.req with analysers := andNot32 s.req.analysers an_bit,
                                analyse_exp := TICK_ETERNITY } }, 1)

/-- The reject exit of tcp_inspect_request (src/proto_tcp.c:691-704):
abort both buffers, clear all request analysers, count denied_req on the
frontend and the listener, record PRXCOND/R if unset, return 0. -/
def inspect_reject (s : Session) : Session × Nat :=
  let s1 := { s with req := buffer_abort s.req, rep := buffer_abort s.rep }
  let s2 := { s1 with req := { s1.req with analysers := 0 } }
  let s3 := { s2 with fe_counters :=
      { s2.fe_counters with denied_req := s2.fe_counters.denied_req + 1 } }
  let s4 : Session :=
    match s3.listener_counters with
    | some c => { s3 with listener_counters := some { c with denied_req := c.denied_req + 1 } }
    | none => s3
  let s5 : Session :=
    if s4.term_err = TermErr.te_none then { s4 with term_err := TermErr.prxcond } else s4
  let s6 : Session :=
    if s5.fin_stage = FinStage.fs_none then { s5 with fin_stage := FinStage.fs_r } else s5
  (s6, 0)

/-- The MISS exit of tcp_inspect_request (src/proto_tcp.c:676-682): block
auto-connect and arm the analyse deadline once, return 0. -/
def inspect_miss (nowMs : Nat) (s : Session) : Session × Nat :=
  let s1 := { s with req := buffer_dont_connect s.req }
  let s2 : Session :=
    if !tick_isset s1.req.analyse_exp && decide (s1.fe_inspect_delay ≠ 0) then
      { s1 with req :=
          { s1.req with analyse_exp := tick_add_ifset nowMs s1.fe_inspect_delay } }
    else s1
  (s2, 0)

/-- The rule loop of tcp_inspect_request (src/proto_tcp.c:671-709); falling
off the list applies the default accept. -/
def tcp_inspect_rules {α β : Type} (fuel nowMs : Nat) (pb : Bool) (an_bit : Nat) :
    List (TcpRule α β) → Session → Option (Session × Nat)
  | [], s => some (inspect_accept s an_bit)
  | rule :: rs, s =>
    match rule.cond with
    | none =>
      match rule.action with
      | TcpAction.act_reject => some (inspect_reject s)
      | TcpAction.act_accept => some (inspect_accept s an_bit)
    | some c =>
      match acl_exec_cond c ⟨false, pb⟩ fuel with
      | none => none
      | some r =>
        if r = ACL_PAT_MISS then some (inspect_miss nowMs s)
        else
          let pass0 := acl_pass r
          let pass1 := if c.pol = CondPol.cunless then !pass0 else pass0
          if pass1 then
            match rule.action with
            | TcpAction.act_reject => some (inspect_reject s)
            | TcpAction.act_accept => some (inspect_accept s an_bit)
          else
            tcp_inspect_rules fuel nowMs pb an_bit rs s

/-- The partial flag computation of tcp_inspect_request
(src/proto_tcp.c:666-669). -/
def inspectPartialFlag (nowMs : Nat) (s : Session) : Bool :=
  if (s.req.flags.shutr || s.req.flags.full) = true ∨ s.fe_inspect_delay = 0 ∨
     tick_is_expired s.req.analyse_exp nowMs = true then false else true

/-- src/proto_tcp.c:642 tcp_inspect_request — run the frontend's
tcp-request content rules over the request buffer.  The rule list is the
frontend's tcp_req.inspect_rules; fuel bounds the FETCH_MORE loops inside
acl_exec_cond (none = divergence). -/
def tcp_inspect_request {α β : Type} (fuel nowMs : Nat)
    (rules : List (TcpRule α β)) (s : Session) (an_bit : Nat) :
    Option (Session × Nat) :=
  tcp_inspect_rules fuel nowMs (inspectPartialFlag nowMs s) an_bit rules s

end Muppet

namespace Muppet

/-- C6.  When the tcp-request content rule loop reaches a reject rule whose
condition evaluates to a definite match (every earlier rule having a
condition that evaluates definitely and does not match), tcp_inspect_request
aborts both the request and response buffers, clears all request analysers,
increments denied_req on the frontend and on the listener (when it has
counters), records error class PRXCOND and finish stage R (unless already
set) and returns 0. -/
theorem C6_tcp_inspect_request_reject {α β : Type} (fuel nowMs : Nat)
    (pre rest : List (TcpRule α β)) (c : AclCond α β) (rj : TcpRule α β)
    (s : Session) (an_bit : Nat) (v : Nat)
    (hrj : rj.action = TcpAction.act_reject) (hc : rj.cond = some c)
    (hpre : ∀ r ∈ pre, ∃ c' v', r.cond = some c' ∧
        acl_exec_cond c' ⟨false, inspectPartialFlag nowMs s⟩ fuel = some v' ∧
        v' ≠ ACL_PAT_MISS ∧
        (if c'.pol = CondPol.cunless then !(acl_pass v') else acl_pass v') = false)
    (hv : acl_exec_cond c ⟨false, inspectPartialFlag nowMs s⟩ fuel = some v)
    (hvm : v ≠ ACL_PAT_MISS)
    (hvp : (if c.pol = CondPol.cunless then !(acl_pass v) else acl_pass v) = true) :
    tcp_inspect_request fuel nowMs (pre ++ rj :: rest) s an_bit =
      some (inspect_reject s) ∧
    (inspect_reject s).2 = 0 ∧
    (inspect_reject s).1.req.flags.shutr_now = true ∧
    (inspect_reject s).1.req.flags.shutw_now = true ∧
    (inspect_reject s).1.rep.flags.shutr_now = true ∧
    (inspect_reject s).1.rep.flags.shutw_now = true ∧
    (inspect_reject s).1.req.analysers = 0 ∧
    (inspect_reject s).1.fe_counters.denied_req = s.fe_counters.denied_req + 1 ∧
    (inspect_reject s).1.listener_counters =
      s.listener_counters.map (fun c0 => { c0 with denied_req := c0.denied_req + 1 }) ∧
    (inspect_reject s).1.term_err =
      (if s.term_err = TermErr.te_none then TermErr.prxcond else s.term_err) ∧
    (inspect_reject s).1.fin_stage =
      (if s.fin_stage = FinStage.fs_none then FinStage.fs_r else s.fin_stage) := by
  constructor
  · unfold tcp_inspect_request
    induction pre with
    | nil =>
      simp only [List.nil_append, tcp_inspect_rules, hc, hv, if_neg hvm, hvp, if_true]
      rw [hrj]
    | cons r pre ih =>
      obtain ⟨c', v', e1, e2, e3, e4⟩ := hpre r (by simp)
      simp only [List.cons_append, tcp_inspect_rules, e1, e2, if_neg e3, e4,
                 Bool.false_eq_true, if_false]
      exact ih (fun r' hr' => hpre r' (by simp [hr']))
  · unfold inspect_reject buffer_abort
    rcases hl : s.listener_counters with - | c0 <;>
      by_cases ht : s.term_err = TermErr.te_none <;>
      by_cases hf : s.fin_stage = FinStage.fs_none <;>
      simp_all

/-- A reject rule guarded by the witness condition wcond. -/
def wrj : TcpRule Nat Nat := ⟨some wcond, TcpAction.act_reject⟩

/-- Witness for C6: a single reject rule whose condition definitely
matches, applied to the concrete session cses. -/
theorem C6_tcp_inspect_request_reject_witness :
    (wrj.action = TcpAction.act_reject ∧ wrj.cond = some wcond ∧
     acl_exec_cond wcond ⟨false, inspectPartialFlag 0 cses⟩ 3 = some ACL_PAT_PASS ∧
     ACL_PAT_PASS ≠ ACL_PAT_MISS ∧
     (if wcond.pol = CondPol.cunless then !(acl_pass ACL_PAT_PASS)
      else acl_pass ACL_PAT_PASS) = true) ∧
    (tcp_inspect_request 3 0 ([] ++ wrj :: []) cses 2 = some (inspect_reject cses) ∧
     (inspect_reject cses).2 = 0 ∧
     (inspect_reject cses).1.req.flags.shutr_now = true ∧
     (inspect_reject cses).1.req.flags.shutw_now = true ∧
     (inspect_reject cses).1.rep.flags.shutr_now = true ∧
     (inspect_reject cses).1.rep.flags.shutw_now = true ∧
     (inspect_reject cses).1.req.analysers = 0 ∧
     (inspect_reject cses).1.fe_counters.denied_req = cses.fe_counters.denied_req + 1 ∧
     (inspect_reject cses).1.listener_counters =
       cses.listener_counters.map (fun c0 => { c0 with denied_req := c0.denied_req + 1 }) ∧
     (inspect_reject cses).1.term_err =
       (if cses.term_err = TermErr.te_none then TermErr.prxcond else cses.term_err) ∧
     (inspect_reject cses).1.fin_stage =
       (if cses.fin_stage = FinStage.fs_none then FinStage.fs_r else cses.fin_stage)) :=
  ⟨⟨rfl, rfl, by decide, by decide, by decide⟩,
   C6_tcp_inspect_request_reject 3 0 [] [] wcond wrj cses 2 ACL_PAT_PASS rfl rfl
     (fun r hr => absurd hr (List.not_mem_nil r))
     (by decide) (by decide) (by decide)⟩

end Muppet

namespace Muppet

/-- Outcome of acl_fetch_rdp_cookie: ok carries the cookie value span
(offset from req->w and length, VOLATILE flags); tooShort is the return-0
path with ACL_TEST_F_MAY_CHANGE set; notCookie the plain return 0. -/
inductive RdpFetch
  | ok (ptr len : Nat)
  | tooShort
  | notCookie
deriving DecidableEq, Repr

/-- Case-insensitive comparison (strncasecmp == 0) of n request bytes at
offset idx (from req->w) against the first n bytes of word. -/
def strncaseEq (req : Buffer) (idx : Nat) (word : List Char) (n : Nat) : Bool :=
  (List.range n).all (fun k =>
    (req.data.getD (req.w + idx + k) (Char.ofNat 0)).toLower =
      (word.getD k ' ').toLower)

/-- The space-skipping loop of acl_fetch_rdp_cookie
(src/proto_tcp.c:1055-1058); bleft is the loop fuel exactly as in C. -/
def rdp_skip_spaces (req : Buffer) : Nat → Nat → Nat × Nat
  | idx, 0 => (idx, 0)
  | idx, bleft + 1 =>
    if req.data.getD (req.w + idx) (Char.ofNat 0) = ' ' then
      rdp_skip_spaces req (idx + 1) bleft
    else (idx, bleft + 1)

/-- The '=' scan of acl_fetch_rdp_cookie (src/proto_tcp.c:1072-1077);
none = a CR or LF was hit first (not_cookie). -/
def rdp_find_eq (req : Buffer) : Nat → Nat → Option (Nat × Nat)
  | idx, 0 => some (idx, 0)
  | idx, bleft + 1 =>
    let c := req.data.getD (req.w + idx) (Char.ofNat 0)
    if c = '=' then some (idx, bleft + 1)
    else if c = '\r' ∨ c = '\n' then none
    else rdp_find_eq req (idx + 1) bleft

/-- The CR scan over the cookie value (src/proto_tcp.c:1093-1096). -/
def rdp_find_cr (req : Buffer) : Nat → Nat → Nat × Nat
  | idx, 0 => (idx, 0)
  | idx, bleft + 1 =>
    if req.data.getD (req.w + idx) (Char.ofNat 0) = '\r' then (idx, bleft + 1)
    else rdp_find_cr req (idx + 1) bleft

/-- The value extraction tail of acl_fetch_rdp_cookie
(src/proto_tcp.c:1089-1106): the value starts at idx and must be terminated
by CRLF within the remaining bytes. -/
def rdp_value (req : Buffer) (idx bleft : Nat) : RdpFetch :=
  let p := rdp_find_cr req idx bleft
  if p.2 < 2 then RdpFetch.tooShort
  else if req.data.getD (req.w + p.1) (Char.ofNat 0) ≠ '\r' ∨
          req.data.getD (req.w + p.1 + 1) (Char.ofNat 0) ≠ '\n' then RdpFetch.notCookie
  else RdpFetch.ok idx (p.1 - idx)

/-- src/proto_tcp.c:1027 acl_fetch_rdp_cookie — extract the RDP cookie
value from the request buffer: at byte 11, literal "Cookie:"
(case-insensitive), spaces, the configured cookie name (or any identifier
up to '=' when no name is configured), '=' and the value up to CRLF.
argStr/argLen are expr->arg (the backend's rdp_cookie name). -/
def acl_fetch_rdp_cookie (req : Buffer) (argStr : List Char) (argLen : Nat) :
    RdpFetch :=
  if req.l ≤ 11 then RdpFetch.tooShort
  else if req.l - 11 ≤ 7 then RdpFetch.tooShort
  else if strncaseEq req 11 [ 'C', 'o', 'o', 'k', 'i', 'e', ':' ] 7 = false then
    RdpFetch.notCookie
  else
    let p := rdp_skip_spaces req 18 (req.l - 11 - 7)
    let idx := p.1
    let bleft := p.2
    if argLen ≠ 0 then
      if bleft ≤ argLen then RdpFetch.tooShort
      else if req.data.getD (req.w + idx + argLen) (Char.ofNat 0) ≠ '=' ∨
              strncaseEq req idx argStr argLen = false then RdpFetch.notCookie
      else rdp_value req (idx + argLen + 1) (bleft - (argLen + 1))
    else
      match rdp_find_eq req idx bleft with
      | none => RdpFetch.notCookie
      | some (idx', bleft') =>
        if bleft' < 1 then RdpFetch.tooShort
        else if req.data.getD (req.w + idx') (Char.ofNat 0) ≠ '=' then RdpFetch.notCookie
        else rdp_value req (idx' + 1) (bleft' - 1)

/-- Modelled from the spec: the libc strtoul base-10 parse used on the
cookie value — read a run of decimal digits from offset idx, returning the
value (unsigned long, saturating at 2^64-1 on overflow) and the stop
offset.  The fuel argument only bounds the recursion and is always given
larger than the buffer. -/
def strtoul10 (req : Buffer) : Nat → Nat → Nat → Nat × Nat
  | 0, idx, acc => (acc, idx)
  | fuel + 1, idx, acc =>
    let c := req.data.getD (req.w + idx) (Char.ofNat 0)
    if '0' ≤ c ∧ c ≤ '9' then
      strtoul10 req fuel (idx + 1) (min (acc * 10 + (c.toNat - 48)) (2 ^ 64 - 1))
    else (acc, idx)

/-- The server walk of tcp_persist_rdp_cookie (src/proto_tcp.c:769-779).
memcmp over the whole sockaddr_in (both sides zero-padded by memset/config
parsing) is family/address/port equality on the stored raw values; a
matching server is taken when it is running or the backend has the persist
option, otherwise the walk continues. -/
def rdp_find_server (a port : Nat) (persist : Bool) : List Server → Option Server
  | [] => none
  | srv :: rest =>
    if srv.addr_family = AF_INET ∧ srv.addr_saddr = a ∧ srv.addr_port = port then
      if srv.running || persist then some srv
      else rdp_find_server a port persist rest
    else rdp_find_server a port persist rest

/-- The cookie-to-server decision of tcp_persist_rdp_cookie
(src/proto_tcp.c:753-779): fetch the cookie value, require it non-empty and
without MAY_CHANGE, parse <num> '.' <num> '.' with strtoul, and walk the
backend's servers. -/
def rdp_cookie_server (s : Session) : Option Server :=
  match acl_fetch_rdp_cookie s.req s.be_rdp_cookie_name s.be_rdp_cookie_len with
  | RdpFetch.ok ptr len =>
    if len = 0 then none
    else
      let p1 := strtoul10 s.req (s.req.data.length + 1) ptr 0
      let a := p1.1 % 2 ^ 32
      if s.req.data.getD (s.req.w + p1.2) (Char.ofNat 0) ≠ '.' then none
      else
        let p2 := strtoul10 s.req (s.req.data.length + 1) (p1.2 + 1) 0
        let port := p2.1 % 2 ^ 16
        if s.req.data.getD (s.req.w + p2.2) (Char.ofNat 0) ≠ '.' then none
        else rdp_find_server a port s.be_options_persist s.be_servers
  | _ => none

/-- src/proto_tcp.c:725 tcp_persist_rdp_cookie — apply RDP cookie
persistence: when the session is not yet assigned and the cookie selects a
usable server, set SN_DIRECT|SN_ASSIGNED and srv; in every case clear the
analyser bit and return 1. -/
def tcp_persist_rdp_cookie (s : Session) (an_bit : Nat) : Session × Nat :=
  let s' : Session :=
    if s.flags.assigned then s
    else
      match rdp_cookie_server s with
      | some srv =>
        { s with flags := { s.flags with direct := true, assigned := true },
                 srv := some srv }
      | none => s
  ({ s' with req := { s'.req with analysers := andNot32 s'.req.analysers an_bit,
                                  analyse_exp := TICK_ETERNITY } }, 1)

end Muppet

namespace Muppet

/-- A fresh request buffer holding exactly the given bytes (w = 0). -/
def mkReqBuf (content : List Char) : Buffer :=
  ⟨content.length, content, content.length, 0, 0, 0, 0, 0, content.length,
   content.length, 16, 0,
   ⟨false, false, false, false, false, false, false, false, false, false,
    false, false, false⟩⟩

/-- An RDP request whose msts cookie value is "16909060.80.0000" (the raw
decimal form the code actually compares). -/
def rdpContent : List Char :=
  "XXXXXXXXXXXCookie: msts=16909060.80.0000\r\n".toList

/-- An RDP request whose msts cookie value is the dotted form
"1.2.3.4.80". -/
def rdpContentDotted : List Char :=
  "XXXXXXXXXXXCookie: msts=1.2.3.4.80\r\n".toList

/-- Running servers covering every byte-order reading of address 1.2.3.4
and port 80 in the stored sockaddr words. -/
def srvBE : Server := ⟨1, AF_INET, 16909060, 80, true, 0, 0, 0⟩

/-- 1.2.3.4 big-endian with htons(80) port word. -/
def srvBEh : Server := ⟨2, AF_INET, 16909060, 20480, true, 0, 0, 0⟩

/-- 1.2.3.4 little-endian with plain port word. -/
def srvLE : Server := ⟨3, AF_INET, 67305985, 80, true, 0, 0, 0⟩

/-- 1.2.3.4 little-endian with htons(80) port word. -/
def srvLEh : Server := ⟨4, AF_INET, 67305985, 20480, true, 0, 0, 0⟩

/-- Unassigned session carrying the raw-decimal cookie, one matching
server. -/
def rses : Session :=
  ⟨⟨false, false, false, false, false, false⟩, TermErr.te_none, FinStage.fs_none,
   3, none, none, none, true, false, false, "msts".toList, 4, [ srvBE ],
   ⟨0, 0, 0, 0⟩, ⟨0, 0, 0, 0⟩, none, 0, SockAddr.unset, SockAddr.unset,
   mkReqBuf rdpContent, wbuf⟩

/-- Unassigned session carrying the dotted cookie, with servers for every
byte-order reading of 1.2.3.4:80. -/
def rsesD : Session :=
  { rses with req := mkReqBuf rdpContentDotted,
              be_servers := [ srvBE, srvBEh, srvLE, srvLEh ] }

/-- C10 counterexample.  On rsesD the extracted cookie value is exactly
"1.2.3.4.80" and servers with IPv4 address 1.2.3.4 port 80 (under every
byte-order reading of the stored words) are configured and running, yet
tcp_persist_rdp_cookie assigns nothing — the code parses the value as
<whole-address-as-one-decimal> '.' <port> '.', not as A.B.C.D.port; on rses
the raw-decimal value "16909060.80.0000" does produce an assignment. -/
theorem C10_tcp_persist_rdp_cookie_counterexample :
    (rsesD.flags.assigned = false ∧
     acl_fetch_rdp_cookie rsesD.req rsesD.be_rdp_cookie_name rsesD.be_rdp_cookie_len =
       RdpFetch.ok 24 10 ∧
     List.take 10 (List.drop 24 rdpContentDotted) = "1.2.3.4.80".toList ∧
     (∀ srv ∈ rsesD.be_servers, srv.running = true) ∧
     (tcp_persist_rdp_cookie rsesD 16).1.srv = none ∧
     (tcp_persist_rdp_cookie rsesD 16).1.flags.assigned = false) ∧
    ((tcp_persist_rdp_cookie rses 16).1.srv = some srvBE ∧
     (tcp_persist_rdp_cookie rses 16).1.flags.assigned = true ∧
     (tcp_persist_rdp_cookie rses 16).2 = 1) := by decide

/-- C10 (amended).  tcp_persist_rdp_cookie always returns 1 and clears its
analyser bit (resetting the analyse deadline) while leaving the buffers
otherwise untouched (it never waits for more data); it modifies the server
assignment — setting SN_DIRECT|SN_ASSIGNED and srv — exactly when the
session is not already assigned and the extracted cookie value parses as
<addr> '.' <port> '.' (the stored 4-byte address word and 2-byte port word
of some configured AF_INET server, each written as one decimal number)
with that server running or the backend's persist option set; in every
other case, including a request too short for the CRLF-terminated cookie,
the session is left unchanged. -/
theorem C10_tcp_persist_rdp_cookie_amended (s : Session) (an_bit : Nat) :
    (tcp_persist_rdp_cookie s an_bit).2 = 1 ∧
    (tcp_persist_rdp_cookie s an_bit).1.req.analysers =
      andNot32 s.req.analysers an_bit ∧
    (tcp_persist_rdp_cookie s an_bit).1.req.analyse_exp = TICK_ETERNITY ∧
    (tcp_persist_rdp_cookie s an_bit).1.req.flags = s.req.flags ∧
    (tcp_persist_rdp_cookie s an_bit).1.req.l = s.req.l ∧
    (tcp_persist_rdp_cookie s an_bit).1.rep = s.rep ∧
    (s.flags.assigned = true →
      (tcp_persist_rdp_cookie s an_bit).1.srv = s.srv ∧
      (tcp_persist_rdp_cookie s an_bit).1.flags = s.flags) ∧
    (s.flags.assigned = false →
      (rdp_cookie_server s = none →
        (tcp_persist_rdp_cookie s an_bit).1.srv = s.srv ∧
        (tcp_persist_rdp_cookie s an_bit).1.flags = s.flags) ∧
      (∀ srv, rdp_cookie_server s = some srv →
        (tcp_persist_rdp_cookie s an_bit).1.srv = some srv ∧
        (tcp_persist_rdp_cookie s an_bit).1.flags.direct = true ∧
        (tcp_persist_rdp_cookie s an_bit).1.flags.assigned = true)) := by
  by_cases ha : s.flags.assigned = true <;>
    cases hr : rdp_cookie_server s <;>
    simp [tcp_persist_rdp_cookie, ha, hr]

/-- Witness for C10 (amended) at the concrete session rses, where the
cookie selects srvBE. -/
theorem C10_tcp_persist_rdp_cookie_amended_witness :
    (rses.flags.assigned = false ∧ rdp_cookie_server rses = some srvBE) ∧
    ((tcp_persist_rdp_cookie rses 16).2 = 1 ∧
     (tcp_persist_rdp_cookie rses 16).1.req.analysers =
       andNot32 rses.req.analysers 16 ∧
     (tcp_persist_rdp_cookie rses 16).1.srv = some srvBE ∧
     (tcp_persist_rdp_cookie rses 16).1.flags.direct = true ∧
     (tcp_persist_rdp_cookie rses 16).1.flags.assigned = true) :=
  ⟨⟨by decide, by decide⟩,
   (C10_tcp_persist_rdp_cookie_amended rses 16).1,
   (C10_tcp_persist_rdp_cookie_amended rses 16).2.1,
   (((C10_tcp_persist_rdp_cookie_amended rses 16).2.2.2.2.2.2.2 (by decide)).2
     srvBE (by decide)).1,
   (((C10_tcp_persist_rdp_cookie_amended rses 16).2.2.2.2.2.2.2 (by decide)).2
     srvBE (by decide)).2.1,
   (((C10_tcp_persist_rdp_cookie_amended rses 16).2.2.2.2.2.2.2 (by decide)).2
     srvBE (by decide)).2.2⟩

end Muppet

namespace Muppet

/-- The NUL character written by the TCP6 scanner. -/
def NUL : Char := Char.ofNat 0

/-- memcmp equality of n bytes at offset i against the first n bytes of
word (the embedded callers always stay within the buffer). -/
def bytesEq (cs : List Char) (i : Nat) (word : List Char) (n : Nat) : Bool :=
  decide ((cs.drop i).take n = word.take n)

/-- include/common/standard.h:276 __read_uint — read an unsigned integer
from offset pos, stopping at endp or the first non-digit; unsigned int
arithmetic wraps mod 2^32.  Returns the value and the stop offset. -/
def read_uint_aux (cs : List Char) (endp : Nat) : Nat → Nat → Nat → Nat × Nat
  | 0, pos, acc => (acc, pos)
  | fuel + 1, pos, acc =>
    if pos < endp then
      let c := cs.getD pos NUL
      if '0' ≤ c ∧ c ≤ '9' then
        read_uint_aux cs endp fuel (pos + 1) ((acc * 10 + (c.toNat - 48)) % 2 ^ 32)
      else (acc, pos)
    else (acc, pos)

/-- read_uint entry point: the fuel endp - pos covers the whole range. -/
def read_uint (cs : List Char) (pos endp : Nat) : Nat × Nat :=
  read_uint_aux cs endp (endp - pos) pos 0

/-- Modelled from the spec: inetaddr_host_lim_ret (declared in
common/standard.h, body outside the vendored sources) — parse a
decimal-dotted IPv4 address ("src/dst are decimal-dotted IPv4") from pos,
not reading past endp; returns the host-order 32-bit value and the stop
offset.  Modelled for canonical dotted quads: up to four groups of decimal
digits separated by dots, each group contributing one byte. -/
def inetaddr_groups (cs : List Char) (endp : Nat) : Nat → Nat → Nat → Nat × Nat
  | 0, pos, acc => (acc, pos)
  | g + 1, pos, acc =>
    let p := read_uint cs pos endp
    let acc' := acc * 256 + p.1 % 256
    if p.2 < endp ∧ cs.getD p.2 NUL = '.' ∧ g ≠ 0 then
      inetaddr_groups cs endp g (p.2 + 1) acc'
    else (acc', p.2)

/-- inetaddr_host_lim_ret over four dotted groups. -/
def inetaddr_host_lim_ret (cs : List Char) (pos endp : Nat) : Nat × Nat :=
  inetaddr_groups cs endp 4 pos 0

/-- A single hexadecimal digit. -/
def hexDigit (c : Char) : Option Nat :=
  if '0' ≤ c ∧ c ≤ '9' then some (c.toNat - 48)
  else if 'a' ≤ c ∧ c ≤ 'f' then some (c.toNat - 87)
  else if 'A' ≤ c ∧ c ≤ 'F' then some (c.toNat - 55)
  else none

/-- Up to k further hex digits of a group. -/
def parseHexMore : Nat → List Char → Nat → Nat × List Char
  | 0, cs, acc => (acc, cs)
  | _ + 1, [], acc => (acc, [])
  | k + 1, c :: rest, acc =>
    match hexDigit c with
    | some d => parseHexMore k rest (acc * 16 + d)
    | none => (acc, c :: rest)

/-- One 1-4 digit hexadecimal group. -/
def parseHexGroup (cs : List Char) : Option (Nat × List Char) :=
  match cs with
  | c :: rest => (hexDigit c).map (fun d => parseHexMore 3 rest d)
  | [] => none

/-- Eight colon-separated groups, consuming the whole string. -/
def inet_pton6_groups : Nat → List Char → Nat → Option Nat
  | 0, _, _ => none
  | g + 1, cs, acc =>
    match parseHexGroup cs with
    | none => none
    | some (v, rest) =>
      if g = 0 then (if rest = [] then some (acc * 65536 + v) else none)
      else
        match rest with
        | ':' :: rest' => inet_pton6_groups g rest' (acc * 65536 + v)
        | _ => none

/-- Modelled from the spec: inet_pton(AF_INET6, s, ...) on a NUL-terminated
string — accepts the canonical eight-group colon-separated hexadecimal
IPv6 form (spec 6: "canonical IPv6") and returns the 128-bit value; other
textual forms are not modelled and are rejected. -/
def inet_pton6 (cs : List Char) : Option Nat := inet_pton6_groups 8 cs 0

/-- The NUL-terminated string starting at offset pos of the (mutated)
buffer data, as read by inet_pton. -/
def nulStr (data : List Char) (pos : Nat) : List Char :=
  (data.drop pos).takeWhile (fun c => c ≠ NUL)

/-- Parse outcomes of the PROXY preamble decoder: the ok forms carry the
parsed addresses/ports and the byte count of the preamble line. -/
inductive ProxyParse
  | p_ok4 (src dst sport dport consumed : Nat)
  | p_ok6 (src dst sport dport consumed : Nat)
  | p_missing
  | p_bad
deriving DecidableEq, Repr

/-- Outcome of the TCP6 separator scan. -/
inductive Scan6Out
  | s_missing (data : List Char)
  | s_bad (data : List Char)
  | s_done (data : List Char) (pos : Nat) (dst sport dport : Option Nat)
deriving DecidableEq, Repr

/-- The TCP6 separator scan of src/client.c:146-168: walk from pos,
NUL-terminating every ' ' separator (recording the three following field
positions) until the CR of the terminating CRLF; fewer than 2 remaining
bytes means a short read.  The fuel only bounds the walk and is given
larger than the buffer. -/
def scan6 : Nat → Nat → List Char → Nat → Option Nat → Option Nat → Option Nat →
    Scan6Out
  | 0, _, data, _, _, _, _ => Scan6Out.s_missing data
  | fuel + 1, endp, data, pos, dst, sport, dport =>
    if pos + 2 > endp then Scan6Out.s_missing data
    else if data.getD pos NUL = '\r' then
      let data' := data.set pos NUL
      if data'.getD (pos + 1) NUL ≠ '\n' then Scan6Out.s_bad data'
      else Scan6Out.s_done data' (pos + 2) dst sport dport
    else if data.getD pos NUL = ' ' then
      let data' := data.set pos NUL
      if dst = none then scan6 fuel endp data' (pos + 1) (some (pos + 1)) sport dport
      else if sport = none then scan6 fuel endp data' (pos + 1) dst (some (pos + 1)) dport
      else if dport = none then scan6 fuel endp data' (pos + 1) dst sport (some (pos + 1))
      else scan6 fuel endp data' (pos + 1) dst sport dport
    else scan6 fuel endp data (pos + 1) dst sport dport

/-- The TCP4 branch of the decoder (src/client.c:94-135). -/
def decode_tcp4 (data : List Char) (l : Nat) : ProxyParse :=
  let p1 := inetaddr_host_lim_ret data 11 l
  if p1.2 = l then ProxyParse.p_missing
  else if data.getD p1.2 NUL ≠ ' ' then ProxyParse.p_bad
  else
    let p2 := inetaddr_host_lim_ret data (p1.2 + 1) l
    if p2.2 = l then ProxyParse.p_missing
    else if data.getD p2.2 NUL ≠ ' ' then ProxyParse.p_bad
    else
      let p3 := read_uint data (p2.2 + 1) l
      if p3.2 = l then ProxyParse.p_missing
      else if data.getD p3.2 NUL ≠ ' ' then ProxyParse.p_bad
      else
        let p4 := read_uint data (p3.2 + 1) l
        if p4.2 + 2 > l then ProxyParse.p_missing
        else if data.getD p4.2 NUL ≠ '\r' then ProxyParse.p_bad
        else if data.getD (p4.2 + 1) NUL ≠ '\n' then ProxyParse.p_bad
        else ProxyParse.p_ok4 p1.1 p2.1 p3.1 p4.1 (p4.2 + 2)

/-- The TCP6 branch of the decoder (src/client.c:136-196); the scan may
leave NULs over the separators even on the missing/bad paths, so the
(possibly mutated) data is returned alongside. -/
def decode_tcp6 (data : List Char) (l : Nat) : ProxyParse × List Char :=
  match scan6 (l + 2) l data 11 none none none with
  | Scan6Out.s_missing data' => (ProxyParse.p_missing, data')
  | Scan6Out.s_bad data' => (ProxyParse.p_bad, data')
  | Scan6Out.s_done data' pos3 odst osport odport =>
    match odst, osport, odport with
    | some dsts, some sports, some dports =>
      let ps := read_uint data' sports (dports - 1)
      if data'.getD ps.2 NUL ≠ NUL then (ProxyParse.p_bad, data')
      else
        let pd := read_uint data' dports (pos3 - 2)
        if data'.getD pd.2 NUL ≠ NUL then (ProxyParse.p_bad, data')
        else
          match inet_pton6 (nulStr data' 11) with
          | none => (ProxyParse.p_bad, data')
          | some src =>
            match inet_pton6 (nulStr data' dsts) with
            | none => (ProxyParse.p_bad, data')
            | some dst => (ProxyParse.p_ok6 src dst ps.1 pd.1 pos3, data')
    | _, _, _ => (ProxyParse.p_bad, data')

/-- The parsing core of frontend_decode_proxy_request (src/client.c:82-199),
reading the preamble at the very start of the buffer storage (line =
req->data, end = req->data + req->l). -/
def decode_parse (data : List Char) (l : Nat) : ProxyParse × List Char :=
  let len := min l 6
  if len = 0 then (ProxyParse.p_missing, data)
  else if bytesEq data 0 "PROXY ".toList len = false then (ProxyParse.p_bad, data)
  else if l < 18 then (ProxyParse.p_missing, data)
  else if bytesEq data 6 "TCP4 ".toList 5 then (decode_tcp4 data l, data)
  else if bytesEq data 6 "TCP6 ".toList 5 then decode_tcp6 data l
  else (ProxyParse.p_bad, data)

end Muppet

namespace Muppet

/-- memmove within the storage array: copy cnt bytes from offset src to
offset dst, overlap-safe (reads the original). -/
def memmoveL (data : List Char) (dst src cnt : Nat) : List Char :=
  (List.range data.length).map (fun i =>
    if dst ≤ i ∧ i < dst + cnt then data.getD (src + (i - dst)) NUL
    else data.getD i NUL)

/-- src/buffers.c:282 buffer_replace2 — splice the region [pos, endp) of
the buffer to hold str; cursors past the zone shift by delta =
len - (endp - pos).  Offsets are relative to the storage origin (the C
pointer comparisons become offset comparisons); the memmove destination
endp + delta equals pos + str.length. -/
def buffer_replace2 (b : Buffer) (pos endp : Nat) (str : List Char) :
    Buffer × Int :=
  let len := str.length
  let delta : Int := (len : Int) - ((endp : Int) - (pos : Int))
  if (b.r : Int) + delta ≥ (b.size : Int) then (b, 0)
  else if (b.r : Int) + delta > (b.w : Int) ∧ b.r ≤ b.w ∧ b.l ≠ 0 then (b, 0)
  else
    let d1 := memmoveL b.data (pos + len) endp (b.r - endp)
    let d2 := if len ≠ 0 then listWrite d1 pos str else d1
    let b1 := { b with data := d2,
                       r := if pos < b.r then ((b.r : Int) + delta).toNat else b.r,
                       lr := if pos < b.lr then ((b.lr : Int) + delta).toNat else b.lr,
                       l := ((b.l : Int) + delta).toNat }
    let b2 := { b1 with flags := { b1.flags with full := false } }
    let b3 : Buffer := if b2.l = 0 then { b2 with r := 0, w := 0, lr := 0 } else b2
    let b4 : Buffer := if b3.max_len ≤ b3.l then
                         { b3 with flags := { b3.flags with full := true } }
                       else b3
    (b4, delta)

/-- The fail exit of frontend_decode_proxy_request (src/client.c:216-229):
abort both buffers, clear the request analysers, count failed_req on the
frontend and the listener, record PRXCOND/R if unset, return 0. -/
def decode_fail (s : Session) : Session × Nat :=
  let s1 := { s with req := buffer_abort s.req, rep := buffer_abort s.rep }
  let s2 := { s1 with req := { s1.req with analysers := 0 } }
  let s3 := { s2 with fe_counters :=
      { s2.fe_counters with failed_req := s2.fe_counters.failed_req + 1 } }
  let s4 : Session :=
    match s3.listener_counters with
    | some c => { s3 with listener_counters := some { c with failed_req := c.failed_req + 1 } }
    | none => s3
  let s5 : Session :=
    if s4.term_err = TermErr.te_none then { s4 with term_err := TermErr.prxcond } else s4
  let s6 : Session :=
    if s5.fin_stage = FinStage.fs_none then { s5 with fin_stage := FinStage.fs_r } else s5
  (s6, 0)

/-- The success exit of frontend_decode_proxy_request
(src/client.c:201-207): strip the preamble line with buffer_replace2,
uncount it from total, clear the analyser bit, return 1. -/
def decode_strip (s : Session) (consumed an_bit : Nat) : Session × Nat :=
  let pr := buffer_replace2 s.req 0 consumed []
  let req1 := pr.1
  let req2 := { req1 with total := req1.total - consumed }
  ({ s with req := { req2 with analysers := andNot32 req2.analysers an_bit } }, 1)

/-- src/client.c:64 frontend_decode_proxy_request — decode the PROXY
preamble at the start of the request buffer: on success rewrite the
session's client and frontend-local addresses (the embedding stores the
host-order values the C code passes through htonl/htons) and strip the
line; on a short read wait unless the buffer is SHUTR or FULL; otherwise
fail. -/
def frontend_decode_proxy_request (s : Session) (an_bit : Nat) : Session × Nat :=
  if s.req.flags.read_error || s.req.flags.read_timeout then decode_fail s
  else
    match decode_parse s.req.data s.req.l with
    | (ProxyParse.p_ok4 src dst sport dport consumed, data') =>
      let s1 := { s with cli_addr := SockAddr.v4 src (sport % 2 ^ 16),
                         frt_addr := SockAddr.v4 dst (dport % 2 ^ 16),
                         flags := { s.flags with frt_addr_set := true } }
      decode_strip { s1 with req := { s1.req with data := data' } } consumed an_bit
    | (ProxyParse.p_ok6 src dst sport dport consumed, data') =>
      let s1 := { s with cli_addr := SockAddr.v6 src (sport % 2 ^ 16),
                         frt_addr := SockAddr.v6 dst (dport % 2 ^ 16),
                         flags := { s.flags with frt_addr_set := true } }
      decode_strip { s1 with req := { s1.req with data := data' } } consumed an_bit
    | (ProxyParse.p_missing, data') =>
      if (s.req.flags.shutr || s.req.flags.full) = false then
        ({ s with req := buffer_dont_connect { s.req with data := data' } }, 0)
      else decode_fail { s with req := { s.req with data := data' } }
    | (ProxyParse.p_bad, data') =>
      decode_fail { s with req := { s.req with data := data' } }

end Muppet

namespace Muppet

theorem getD_set_ne (l : List Char) (i j : Nat) (a d : Char) (h : i ≠ j) :
    (l.set i a).getD j d = l.getD j d := by
  simp only [List.getD_eq_getElem?_getD]
  rw [List.getElem?_set_ne h]

theorem takeWhile_append_sep (p : Char → Bool) (xs ys : List Char) (y : Char)
    (hxs : ∀ x ∈ xs, p x) (hy : p y = false) :
    (xs ++ y :: ys).takeWhile p = xs := by
  induction xs with
  | nil => simp [List.takeWhile, hy]
  | cons a t ih =>
    simp only [List.cons_append, List.takeWhile, List.append_eq]
    rw [hxs a (by simp)]
    simp only [if_true]
    rw [ih (fun x hx => hxs x (by simp [hx]))]

theorem getD_mem (l : List Char) (n : Nat) (h : n < l.length) (d : Char) :
    l.getD n d ∈ l := by
  rw [List.getD_eq_getElem l d h]
  exact List.getElem_mem h

theorem memmoveL_length (data : List Char) (dst src cnt : Nat) :
    (memmoveL data dst src cnt).length = data.length := by
  unfold memmoveL
  simp

theorem memmoveL_getD (data : List Char) (dst src cnt i : Nat)
    (h : i < data.length) :
    (memmoveL data dst src cnt).getD i NUL =
      if dst ≤ i ∧ i < dst + cnt then data.getD (src + (i - dst)) NUL
      else data.getD i NUL := by
  unfold memmoveL
  simp only [List.getD_eq_getElem?_getD, List.getElem?_map]
  rw [List.getElem?_range h]
  simp

theorem buffer_replace2_strip (b : Buffer) (consumed : Nat)
    (hc : 0 < consumed) (hcl : consumed < b.l) (hrl : b.r = b.l)
    (hw : b.w = 0) (hlen : b.l ≤ b.data.length) (hsize : b.size = b.data.length) :
    (buffer_replace2 b 0 consumed []).1.l = b.l - consumed ∧
    (buffer_replace2 b 0 consumed []).1.r = b.l - consumed ∧
    (buffer_replace2 b 0 consumed []).1.w = b.w ∧
    (buffer_replace2 b 0 consumed []).1.data =
      memmoveL b.data 0 consumed (b.r - consumed) ∧
    (buffer_replace2 b 0 consumed []).1.total = b.total ∧
    (buffer_replace2 b 0 consumed []).1.analysers = b.analysers := by
  unfold buffer_replace2
  simp only [List.length_nil]
  rw [if_neg (by push_cast; omega), if_neg (by push_cast; omega)]
  rw [if_neg (by simp : ¬ (0 : Nat) ≠ 0)]
  rw [if_pos (by omega : (0 : Nat) < b.r)]
  rw [if_neg (by omega :
    ¬ ((b.l : Int) + (((0 : Nat) : Int) -
        (((consumed : Nat) : Int) - ((0 : Nat) : Int)))).toNat = 0)]
  refine ⟨?_, ?_, ?_, ?_, ?_, ?_⟩
  · simp only [apply_ite Buffer.l, ite_self]
    omega
  · simp only [apply_ite Buffer.r, ite_self]
    omega
  · simp only [apply_ite Buffer.w, ite_self]
  · simp only [apply_ite Buffer.data, ite_self]
  · simp only [apply_ite Buffer.total, ite_self]
  · simp only [apply_ite Buffer.analysers, ite_self]

theorem decode4_spec (s : Session) (an_bit : Nat)
    (srcv p1 dstv p2 spv p3 dpv p4 : Nat)
    (herr : (s.req.flags.read_error || s.req.flags.read_timeout) = false)
    (htake : s.req.data.take 11 = "PROXY TCP4 ".toList)
    (hl18 : 18 ≤ s.req.l)
    (hsrc : inetaddr_host_lim_ret s.req.data 11 s.req.l = (srcv, p1))
    (hp1 : p1 < s.req.l) (hb1 : s.req.data.getD p1 NUL = ' ')
    (hdst : inetaddr_host_lim_ret s.req.data (p1 + 1) s.req.l = (dstv, p2))
    (hp2 : p2 < s.req.l) (hb2 : s.req.data.getD p2 NUL = ' ')
    (hsp : read_uint s.req.data (p2 + 1) s.req.l = (spv, p3))
    (hp3 : p3 < s.req.l) (hb3 : s.req.data.getD p3 NUL = ' ')
    (hdp : read_uint s.req.data (p3 + 1) s.req.l = (dpv, p4))
    (hp4 : p4 + 2 < s.req.l)
    (hcr : s.req.data.getD p4 NUL = '\r') (hlf : s.req.data.getD (p4 + 1) NUL = '\n')
    (hr : s.req.r = s.req.l) (hw : s.req.w = 0)
    (hlen : s.req.l ≤ s.req.data.length) (hsize : s.req.size = s.req.data.length) :
    (frontend_decode_proxy_request s an_bit).2 = 1 ∧
    (frontend_decode_proxy_request s an_bit).1.cli_addr =
      SockAddr.v4 srcv (spv % 2 ^ 16) ∧
    (frontend_decode_proxy_request s an_bit).1.frt_addr =
      SockAddr.v4 dstv (dpv % 2 ^ 16) ∧
    (frontend_decode_proxy_request s an_bit).1.flags.frt_addr_set = true ∧
    (frontend_decode_proxy_request s an_bit).1.req.l = s.req.l - (p4 + 2) ∧
    (frontend_decode_proxy_request s an_bit).1.req.w = 0 ∧
    (frontend_decode_proxy_request s an_bit).1.req.r = s.req.l - (p4 + 2) ∧
    (∀ i, i < s.req.l - (p4 + 2) →
      (frontend_decode_proxy_request s an_bit).1.req.data.getD i NUL =
        s.req.data.getD (p4 + 2 + i) NUL) ∧
    (frontend_decode_proxy_request s an_bit).1.req.analysers =
      andNot32 s.req.analysers an_bit := by
  have hpx : bytesEq s.req.data 0 "PROXY ".toList (min s.req.l 6) = true := by
    have hmin : min s.req.l 6 = 6 := by omega
    rw [hmin]
    unfold bytesEq
    rw [List.drop_zero]
    have h6 : s.req.data.take 6 = (s.req.data.take 11).take 6 := by
      rw [List.take_take]
      norm_num
    rw [decide_eq_true_eq, h6, htake]
    decide
  have htcp4 : bytesEq s.req.data 6 "TCP4 ".toList 5 = true := by
    unfold bytesEq
    have hdt : (s.req.data.drop 6).take 5 = (s.req.data.take 11).drop 6 := by
      rw [List.drop_take]
    rw [decide_eq_true_eq, hdt, htake]
    decide
  have hparse : decode_parse s.req.data s.req.l =
      (ProxyParse.p_ok4 srcv dstv spv dpv (p4 + 2), s.req.data) := by
    unfold decode_parse
    rw [if_neg (by omega : ¬ min s.req.l 6 = 0), hpx]
    simp only [Bool.true_eq_false, if_false]
    rw [if_neg (by omega : ¬ s.req.l < 18), htcp4, if_pos rfl]
    unfold decode_tcp4
    simp only [hsrc, hdst, hsp, hdp]
    rw [if_neg (by omega : ¬ p1 = s.req.l), if_neg (by rw [hb1]; simp),
        if_neg (by omega : ¬ p2 = s.req.l), if_neg (by rw [hb2]; simp),
        if_neg (by omega : ¬ p3 = s.req.l), if_neg (by rw [hb3]; simp),
        if_neg (by omega : ¬ p4 + 2 > s.req.l), if_neg (by rw [hcr]; simp),
        if_neg (by rw [hlf]; simp)]
  have hmain : frontend_decode_proxy_request s an_bit =
      decode_strip
        { s with cli_addr := SockAddr.v4 srcv (spv % 2 ^ 16),
                 frt_addr := SockAddr.v4 dstv (dpv % 2 ^ 16),
                 flags := { s.flags with frt_addr_set := true } }
        (p4 + 2) an_bit := by
    unfold frontend_decode_proxy_request
    rw [if_neg (by simp [herr])]
    rw [hparse]
  obtain ⟨e1, e2, e3, e4, e5, e6⟩ :=
    buffer_replace2_strip s.req (p4 + 2) (by omega) (by omega) hr hw hlen hsize
  rw [hmain]
  refine ⟨rfl, rfl, rfl, rfl, e1, e3.trans hw, e2, ?_,
    congrArg (fun x => andNot32 x an_bit) e6⟩
  intro i hi
  show (buffer_replace2 s.req 0 (p4 + 2) []).1.data.getD i NUL =
    s.req.data.getD (p4 + 2 + i) NUL
  rw [e4, memmoveL_getD _ _ _ _ _ (by omega),
      if_pos ⟨Nat.zero_le i, by omega⟩]
  simp only [Nat.sub_zero]

end Muppet

namespace Muppet

theorem getD_append_len (xs : List Char) (y : Char) (ys : List Char) :
    (xs ++ y :: ys).getD xs.length NUL = y := by
  induction xs with
  | nil => rfl
  | cons a t ih =>
    simp only [List.cons_append, List.length_cons, List.getD_cons_succ]
    exact ih

theorem set_append_len (xs : List Char) (y a : Char) (ys : List Char) :
    (xs ++ y :: ys).set xs.length a = xs ++ a :: ys := by
  induction xs with
  | nil => rfl
  | cons b t ih =>
    simp only [List.cons_append, List.length_cons, List.set_cons_succ]
    rw [ih]

theorem scan6_skip_seg (seg : List Char) :
    ∀ (pre tail : List Char) (fuel endp : Nat) (d sp dp : Option Nat),
    (∀ c ∈ seg, c ≠ '\r' ∧ c ≠ ' ') →
    pre.length + seg.length + 1 ≤ endp →
    scan6 (seg.length + fuel) endp (pre ++ seg ++ tail) pre.length d sp dp =
      scan6 fuel endp (pre ++ seg ++ tail) (pre.length + seg.length) d sp dp := by
  induction seg with
  | nil =>
    intro pre tail fuel endp d sp dp _ _
    simp
  | cons c cs ih =>
    intro pre tail fuel endp d sp dp hch hend
    have hend' : pre.length + cs.length + 2 ≤ endp := by
      simp only [List.length_cons] at hend
      omega
    have hstep : (c :: cs).length + fuel = (cs.length + fuel) + 1 := by
      simp only [List.length_cons]
      omega
    rw [hstep, scan6]
    have hc : (pre ++ (c :: cs) ++ tail).getD pre.length NUL = c := by
      rw [List.append_assoc, List.cons_append]
      exact getD_append_len pre c (cs ++ tail)
    rw [if_neg (by omega : ¬ pre.length + 2 > endp), hc,
        if_neg (hch c (by simp)).1, if_neg (hch c (by simp)).2]
    have hdata : pre ++ (c :: cs) ++ tail = (pre ++ [c]) ++ cs ++ tail := by
      simp
    have hlen1 : pre.length + 1 = (pre ++ [c]).length := by simp
    rw [hdata, hlen1]
    have hpos : pre.length + (c :: cs).length = (pre ++ [c]).length + cs.length := by
      simp only [List.length_append, List.length_cons, List.length_nil]
      omega
    rw [hpos]
    exact ih (pre ++ [c]) tail fuel endp d sp dp
      (fun x hx => hch x (by simp [hx]))
      (by simp only [List.length_append, List.length_cons, List.length_nil]
          omega)

theorem scan6_space_step (pre tail : List Char) (fuel endp : Nat)
    (d sp dp : Option Nat) (hend : pre.length + 2 ≤ endp) :
    scan6 (fuel + 1) endp (pre ++ ' ' :: tail) pre.length d sp dp =
      (if d = none then
        scan6 fuel endp (pre ++ NUL :: tail) (pre.length + 1)
          (some (pre.length + 1)) sp dp
       else if sp = none then
        scan6 fuel endp (pre ++ NUL :: tail) (pre.length + 1) d
          (some (pre.length + 1)) dp
       else if dp = none then
        scan6 fuel endp (pre ++ NUL :: tail) (pre.length + 1) d sp
          (some (pre.length + 1))
       else scan6 fuel endp (pre ++ NUL :: tail) (pre.length + 1) d sp dp) := by
  rw [scan6, if_neg (by omega : ¬ pre.length + 2 > endp), getD_append_len,
      if_neg (by decide : ¬ (' ' = '\r')), if_pos rfl, set_append_len]

theorem scan6_cr_step (pre tail : List Char) (fuel endp : Nat)
    (d sp dp : Option Nat) (hend : pre.length + 2 ≤ endp) :
    scan6 (fuel + 1) endp (pre ++ '\r' :: '\n' :: tail) pre.length d sp dp =
      Scan6Out.s_done (pre ++ NUL :: '\n' :: tail) (pre.length + 2) d sp dp := by
  rw [scan6, if_neg (by omega : ¬ pre.length + 2 > endp), getD_append_len,
      if_pos rfl, set_append_len]
  have h2 : (pre ++ NUL :: '\n' :: tail).getD (pre.length + 1) NUL = '\n' := by
    have hre : pre ++ NUL :: '\n' :: tail = (pre ++ [NUL]) ++ '\n' :: tail := by
      simp
    have hl : pre.length + 1 = (pre ++ [NUL]).length := by simp
    rw [hre, hl, getD_append_len]
  simp only [h2]
  rw [if_neg (by simp : ¬ ('\n' : Char) ≠ '\n')]

end Muppet

namespace Muppet

theorem digit_char_ne (c : Char) (h1 : '0' ≤ c) (h2 : c ≤ '9') :
    c ≠ '\r' ∧ c ≠ ' ' ∧ c ≠ NUL := by
  refine ⟨?_, ?_, ?_⟩ <;> intro he <;> subst he
  · exact absurd h1 (by decide)
  · exact absurd h1 (by decide)
  · exact absurd h1 (by decide)

theorem read_uint_aux_seg : ∀ (seg : List Char), ∀ (pre tail : List Char) (acc : Nat),
    (∀ c ∈ seg, '0' ≤ c ∧ c ≤ '9') →
    read_uint_aux (pre ++ seg ++ tail) (pre.length + seg.length) seg.length
      pre.length acc =
      (seg.foldl (fun a c => (a * 10 + (c.toNat - 48)) % 2 ^ 32) acc,
       pre.length + seg.length) := by
  intro seg
  induction seg with
  | nil =>
    intro pre tail acc _
    simp only [List.length_nil, List.foldl_nil]
    rw [read_uint_aux]
    simp
  | cons c cs ih =>
    intro pre tail acc hdig
    rw [show (c :: cs).length = cs.length + 1 from by simp, read_uint_aux]
    have hc : (pre ++ (c :: cs) ++ tail).getD pre.length NUL = c := by
      rw [List.append_assoc, List.cons_append]
      exact getD_append_len pre c (cs ++ tail)
    rw [if_pos (by omega : pre.length < pre.length + (cs.length + 1))]
    simp only [hc]
    rw [if_pos ⟨(hdig c (by simp)).1, (hdig c (by simp)).2⟩]
    have hdata : pre ++ (c :: cs) ++ tail = (pre ++ [c]) ++ cs ++ tail := by
      simp
    have hpos : pre.length + (cs.length + 1) = (pre ++ [c]).length + cs.length := by
      simp only [List.length_append, List.length_cons, List.length_nil]
      omega
    have hp1 : pre.length + 1 = (pre ++ [c]).length := by simp
    rw [hdata, hpos, hp1,
        ih (pre ++ [c]) tail ((acc * 10 + (c.toNat - 48)) % 2 ^ 32)
          (fun x hx => hdig x (by simp [hx]))]
    rw [List.foldl_cons]

theorem read_uint_seg (pre seg tail : List Char)
    (hdig : ∀ c ∈ seg, '0' ≤ c ∧ c ≤ '9') :
    read_uint (pre ++ seg ++ tail) pre.length (pre.length + seg.length) =
      (seg.foldl (fun a c => (a * 10 + (c.toNat - 48)) % 2 ^ 32) 0,
       pre.length + seg.length) := by
  unfold read_uint
  rw [show pre.length + seg.length - pre.length = seg.length from by omega]
  exact read_uint_aux_seg seg pre tail 0 hdig

theorem read_uint_pure (seg : List Char)
    (hdig : ∀ c ∈ seg, '0' ≤ c ∧ c ≤ '9') :
    read_uint seg 0 seg.length =
      (seg.foldl (fun a c => (a * 10 + (c.toNat - 48)) % 2 ^ 32) 0, seg.length) := by
  have h := read_uint_seg [] seg [] hdig
  simpa using h

end Muppet

namespace Muppet

theorem scan6_unit (pre seg tail : List Char) (fuel endp : Nat)
    (d sp dp : Option Nat)
    (hch : ∀ c ∈ seg, c ≠ '\r' ∧ c ≠ ' ')
    (hend : pre.length + seg.length + 2 ≤ endp) :
    scan6 (seg.length + (1 + fuel)) endp (pre ++ seg ++ ' ' :: tail)
      pre.length d sp dp =
      (if d = none then
        scan6 fuel endp (pre ++ seg ++ NUL :: tail)
          (pre.length + seg.length + 1)
          (some (pre.length + seg.length + 1)) sp dp
       else if sp = none then
        scan6 fuel endp (pre ++ seg ++ NUL :: tail)
          (pre.length + seg.length + 1) d
          (some (pre.length + seg.length + 1)) dp
       else if dp = none then
        scan6 fuel endp (pre ++ seg ++ NUL :: tail)
          (pre.length + seg.length + 1) d sp
          (some (pre.length + seg.length + 1))
       else
        scan6 fuel endp (pre ++ seg ++ NUL :: tail)
          (pre.length + seg.length + 1) d sp dp) := by
  rw [scan6_skip_seg seg pre (' ' :: tail) (1 + fuel) endp d sp dp hch (by omega)]
  rw [Nat.add_comm 1 fuel]
  rw [show pre.length + seg.length = (pre ++ seg).length from
        (List.length_append pre seg).symm]
  rw [scan6_space_step (pre ++ seg) tail fuel endp d sp dp
        (by simp only [List.length_append]; omega)]

end Muppet

namespace Muppet

set_option maxHeartbeats 1600000 in
theorem scan6_done (pre srcS dstS spS dpS rest : List Char) (extra endp : Nat)
    (hsrc : ∀ c ∈ srcS, c ≠ '\r' ∧ c ≠ ' ')
    (hdst : ∀ c ∈ dstS, c ≠ '\r' ∧ c ≠ ' ')
    (hsp : ∀ c ∈ spS, c ≠ '\r' ∧ c ≠ ' ')
    (hdp : ∀ c ∈ dpS, c ≠ '\r' ∧ c ≠ ' ')
    (hend : pre.length + srcS.length + dstS.length + spS.length + dpS.length + 5 ≤
      endp) :
    scan6
      (srcS.length + (1 + (dstS.length + (1 + (spS.length +
        (1 + (dpS.length + (1 + extra))))))))
      endp
      (pre ++ srcS ++ (' ' :: (dstS ++ (' ' :: (spS ++ (' ' ::
        (dpS ++ ('\r' :: '\n' :: rest))))))))
      pre.length none none none =
    Scan6Out.s_done
      (pre ++ srcS ++ (NUL :: (dstS ++ (NUL :: (spS ++ (NUL ::
        (dpS ++ (NUL :: '\n' :: rest))))))))
      (pre.length + srcS.length + dstS.length + spS.length + dpS.length + 5)
      (some (pre.length + srcS.length + 1))
      (some (pre.length + srcS.length + dstS.length + 2))
      (some (pre.length + srcS.length + dstS.length + spS.length + 3)) := by
  rw [scan6_unit pre srcS
        (dstS ++ (' ' :: (spS ++ (' ' :: (dpS ++ ('\r' :: '\n' :: rest))))))
        (dstS.length + (1 + (spS.length + (1 + (dpS.length + (1 + extra))))))
        endp none none none hsrc (by omega)]
  rw [if_pos rfl]
  rw [show pre ++ srcS ++
        NUL :: (dstS ++ (' ' :: (spS ++ (' ' :: (dpS ++ ('\r' :: '\n' :: rest)))))) =
      (pre ++ srcS ++ [NUL]) ++ dstS ++
        (' ' :: (spS ++ (' ' :: (dpS ++ ('\r' :: '\n' :: rest))))) from by simp]
  rw [show pre.length + srcS.length + 1 = (pre ++ srcS ++ [NUL]).length from by
        simp only [List.length_append, List.length_cons, List.length_nil]]
  rw [scan6_unit (pre ++ srcS ++ [NUL]) dstS
        (spS ++ (' ' :: (dpS ++ ('\r' :: '\n' :: rest))))
        (spS.length + (1 + (dpS.length + (1 + extra))))
        endp (some (pre ++ srcS ++ [NUL]).length) none none hdst
        (by simp only [List.length_append, List.length_cons, List.length_nil]
            omega)]
  rw [if_neg (by simp), if_pos rfl]
  rw [show (pre ++ srcS ++ [NUL]) ++ dstS ++
        NUL :: (spS ++ (' ' :: (dpS ++ ('\r' :: '\n' :: rest)))) =
      (pre ++ srcS ++ [NUL] ++ dstS ++ [NUL]) ++ spS ++
        (' ' :: (dpS ++ ('\r' :: '\n' :: rest))) from by simp]
  rw [show (pre ++ srcS ++ [NUL]).length + dstS.length + 1 =
      (pre ++ srcS ++ [NUL] ++ dstS ++ [NUL]).length from by
        simp only [List.length_append, List.length_cons, List.length_nil]]
  rw [scan6_unit (pre ++ srcS ++ [NUL] ++ dstS ++ [NUL]) spS
        (dpS ++ ('\r' :: '\n' :: rest))
        (dpS.length + (1 + extra))
        endp (some (pre ++ srcS ++ [NUL]).length)
        (some (pre ++ srcS ++ [NUL] ++ dstS ++ [NUL]).length) none hsp
        (by simp only [List.length_append, List.length_cons, List.length_nil]
            omega)]
  rw [if_neg (by simp), if_neg (by simp), if_pos rfl]
  rw [show (pre ++ srcS ++ [NUL] ++ dstS ++ [NUL]) ++ spS ++
        NUL :: (dpS ++ ('\r' :: '\n' :: rest)) =
      (pre ++ srcS ++ [NUL] ++ dstS ++ [NUL] ++ spS ++ [NUL]) ++ dpS ++
        ('\r' :: '\n' :: rest) from by simp]
  rw [show (pre ++ srcS ++ [NUL] ++ dstS ++ [NUL]).length + spS.length + 1 =
      (pre ++ srcS ++ [NUL] ++ dstS ++ [NUL] ++ spS ++ [NUL]).length from by
        simp only [List.length_append, List.length_cons, List.length_nil]]
  rw [scan6_skip_seg dpS (pre ++ srcS ++ [NUL] ++ dstS ++ [NUL] ++ spS ++ [NUL])
        ('\r' :: '\n' :: rest) (1 + extra) endp
        (some (pre ++ srcS ++ [NUL]).length)
        (some (pre ++ srcS ++ [NUL] ++ dstS ++ [NUL]).length)
        (some (pre ++ srcS ++ [NUL] ++ dstS ++ [NUL] ++ spS ++ [NUL]).length) hdp
        (by simp only [List.length_append, List.length_cons, List.length_nil]
            omega)]
  rw [Nat.add_comm 1 extra]
  rw [show (pre ++ srcS ++ [NUL] ++ dstS ++ [NUL] ++ spS ++ [NUL]).length +
        dpS.length =
      (pre ++ srcS ++ [NUL] ++ dstS ++ [NUL] ++ spS ++ [NUL] ++ dpS).length from by
        simp only [List.length_append, List.length_cons, List.length_nil]]
  rw [show (pre ++ srcS ++ [NUL] ++ dstS ++ [NUL] ++ spS ++ [NUL]) ++ dpS ++
        ('\r' :: '\n' :: rest) =
      (pre ++ srcS ++ [NUL] ++ dstS ++ [NUL] ++ spS ++ [NUL] ++ dpS) ++
        ('\r' :: '\n' :: rest) from by simp]
  rw [scan6_cr_step (pre ++ srcS ++ [NUL] ++ dstS ++ [NUL] ++ spS ++ [NUL] ++ dpS)
        rest extra endp
        (some (pre ++ srcS ++ [NUL]).length)
        (some (pre ++ srcS ++ [NUL] ++ dstS ++ [NUL]).length)
        (some (pre ++ srcS ++ [NUL] ++ dstS ++ [NUL] ++ spS ++ [NUL]).length)
        (by simp only [List.length_append, List.length_cons, List.length_nil]
            omega)]
  simp only [Scan6Out.s_done.injEq, Option.some.injEq, List.append_assoc,
    List.cons_append, List.singleton_append, List.nil_append,
    List.length_append, List.length_cons, List.length_nil]
  refine ⟨trivial, ?_, trivial, ?_, ?_⟩ <;> omega

end Muppet

namespace Muppet

theorem decode_tcp6_ok (srcS dstS spS dpS rest : List Char) (srcv dstv L : Nat)
    (hL : L = 16 + srcS.length + dstS.length + spS.length + dpS.length +
      rest.length)
    (hsrcch : ∀ c ∈ srcS, c ≠ '\r' ∧ c ≠ ' ' ∧ c ≠ NUL)
    (hdstch : ∀ c ∈ dstS, c ≠ '\r' ∧ c ≠ ' ' ∧ c ≠ NUL)
    (hspd : ∀ c ∈ spS, '0' ≤ c ∧ c ≤ '9')
    (hdpd : ∀ c ∈ dpS, '0' ≤ c ∧ c ≤ '9')
    (hpton_src : inet_pton6 srcS = some srcv)
    (hpton_dst : inet_pton6 dstS = some dstv)
    (hsrc1 : 0 < srcS.length)
    (hrest : 0 < rest.length) :
    decode_parse ("PROXY TCP6 ".toList ++ srcS ++ (' ' :: (dstS ++ (' ' :: (spS ++ (' ' :: (dpS ++ ('\r' :: '\n' :: rest)))))))) L =
      (ProxyParse.p_ok6 srcv dstv
        (spS.foldl (fun x c => (x * 10 + (c.toNat - 48)) % 2 ^ 32) 0)
        (dpS.foldl (fun x c => (x * 10 + (c.toNat - 48)) % 2 ^ 32) 0)
        (16 + srcS.length + dstS.length + spS.length + dpS.length),
       "PROXY TCP6 ".toList ++ srcS ++ (NUL :: (dstS ++ (NUL :: (spS ++ (NUL :: (dpS ++ (NUL :: '\n' :: rest)))))))) := by
  have hP6l : (("PROXY TCP6 ".toList : List Char)).length = 11 := rfl
  have hsplit : "PROXY TCP6 ".toList ++ srcS ++ (' ' :: (dstS ++ (' ' :: (spS ++ (' ' :: (dpS ++ ('\r' :: '\n' :: rest))))))) =
      "PROXY TCP6 ".toList ++ (srcS ++ (' ' :: (dstS ++ (' ' :: (spS ++ (' ' ::
        (dpS ++ ('\r' :: '\n' :: rest)))))))) := by simp
  have hpx : bytesEq ("PROXY TCP6 ".toList ++ srcS ++ (' ' :: (dstS ++ (' ' :: (spS ++ (' ' :: (dpS ++ ('\r' :: '\n' :: rest)))))))) 0 "PROXY ".toList (min L 6) = true := by
    rw [show min L 6 = 6 from by omega]
    unfold bytesEq
    rw [List.drop_zero, hsplit,
        List.take_append_of_le_length (by decide :
          (6 : Nat) ≤ (("PROXY TCP6 ".toList : List Char)).length)]
    decide
  have htcp4 : bytesEq ("PROXY TCP6 ".toList ++ srcS ++ (' ' :: (dstS ++ (' ' :: (spS ++ (' ' :: (dpS ++ ('\r' :: '\n' :: rest)))))))) 6 "TCP4 ".toList 5 = false := by
    unfold bytesEq
    rw [hsplit,
        List.drop_append_of_le_length (by decide :
          (6 : Nat) ≤ (("PROXY TCP6 ".toList : List Char)).length),
        show (("PROXY TCP6 ".toList : List Char)).drop 6 = "TCP6 ".toList from rfl,
        List.take_append_of_le_length (by decide :
          (5 : Nat) ≤ (("TCP6 ".toList : List Char)).length)]
    decide
  have htcp6 : bytesEq ("PROXY TCP6 ".toList ++ srcS ++ (' ' :: (dstS ++ (' ' :: (spS ++ (' ' :: (dpS ++ ('\r' :: '\n' :: rest)))))))) 6 "TCP6 ".toList 5 = true := by
    unfold bytesEq
    rw [hsplit,
        List.drop_append_of_le_length (by decide :
          (6 : Nat) ≤ (("PROXY TCP6 ".toList : List Char)).length),
        show (("PROXY TCP6 ".toList : List Char)).drop 6 = "TCP6 ".toList from rfl,
        List.take_append_of_le_length (by decide :
          (5 : Nat) ≤ (("TCP6 ".toList : List Char)).length)]
    decide
  have hscan : scan6 (L + 2) L ("PROXY TCP6 ".toList ++ srcS ++ (' ' :: (dstS ++ (' ' :: (spS ++ (' ' :: (dpS ++ ('\r' :: '\n' :: rest)))))))) 11 none none none =
      Scan6Out.s_done ("PROXY TCP6 ".toList ++ srcS ++ (NUL :: (dstS ++ (NUL :: (spS ++ (NUL :: (dpS ++ (NUL :: '\n' :: rest))))))))
        (16 + srcS.length + dstS.length + spS.length + dpS.length)
        (some (12 + srcS.length))
        (some (13 + srcS.length + dstS.length))
        (some (14 + srcS.length + dstS.length + spS.length)) := by
    rw [show L + 2 = srcS.length + (1 + (dstS.length + (1 + (spS.length +
          (1 + (dpS.length + (1 + (rest.length + 14)))))))) from by omega]
    show scan6 _ L _ (("PROXY TCP6 ".toList : List Char)).length none none none = _
    rw [scan6_done "PROXY TCP6 ".toList srcS dstS spS dpS rest (rest.length + 14) L
          (fun c hc => ⟨(hsrcch c hc).1, (hsrcch c hc).2.1⟩)
          (fun c hc => ⟨(hdstch c hc).1, (hdstch c hc).2.1⟩)
          (fun c hc => ⟨(digit_char_ne c (hspd c hc).1 (hspd c hc).2).1,
            (digit_char_ne c (hspd c hc).1 (hspd c hc).2).2.1⟩)
          (fun c hc => ⟨(digit_char_ne c (hdpd c hc).1 (hdpd c hc).2).1,
            (digit_char_ne c (hdpd c hc).1 (hdpd c hc).2).2.1⟩)
          (by simp only [List.length_append, List.length_cons, List.length_nil, hP6l]; omega)]
    simp only [Scan6Out.s_done.injEq, Option.some.injEq, hP6l]
    refine ⟨trivial, ?_, ?_, ?_, ?_⟩ <;> omega
  have hps : read_uint ("PROXY TCP6 ".toList ++ srcS ++ (NUL :: (dstS ++ (NUL :: (spS ++ (NUL :: (dpS ++ (NUL :: '\n' :: rest)))))))) (13 + srcS.length + dstS.length)
      (14 + srcS.length + dstS.length + spS.length - 1) =
      (spS.foldl (fun x c => (x * 10 + (c.toNat - 48)) % 2 ^ 32) 0, 13 + srcS.length + dstS.length + spS.length) := by
    rw [show "PROXY TCP6 ".toList ++ srcS ++ (NUL :: (dstS ++ (NUL :: (spS ++ (NUL :: (dpS ++ (NUL :: '\n' :: rest))))))) = ("PROXY TCP6 ".toList ++ srcS ++ [NUL] ++ dstS ++ [NUL]) ++ spS ++ (NUL :: (dpS ++ (NUL :: '\n' :: rest))) from by simp,
        show 13 + srcS.length + dstS.length =
          (("PROXY TCP6 ".toList ++ srcS ++ [NUL] ++ dstS ++ [NUL] : List Char)).length from by simp only [List.length_append, List.length_cons, List.length_nil, hP6l]; omega,
        show 14 + srcS.length + dstS.length + spS.length - 1 =
          (("PROXY TCP6 ".toList ++ srcS ++ [NUL] ++ dstS ++ [NUL] : List Char)).length + spS.length from by simp only [List.length_append, List.length_cons, List.length_nil, hP6l]; omega]
    rw [read_uint_seg ("PROXY TCP6 ".toList ++ srcS ++ [NUL] ++ dstS ++ [NUL]) spS (NUL :: (dpS ++ (NUL :: '\n' :: rest))) hspd]
  have hnul3 : ("PROXY TCP6 ".toList ++ srcS ++ (NUL :: (dstS ++ (NUL :: (spS ++ (NUL :: (dpS ++ (NUL :: '\n' :: rest))))))) : List Char).getD
      (13 + srcS.length + dstS.length + spS.length) NUL = NUL := by
    rw [show "PROXY TCP6 ".toList ++ srcS ++ (NUL :: (dstS ++ (NUL :: (spS ++ (NUL :: (dpS ++ (NUL :: '\n' :: rest))))))) = ("PROXY TCP6 ".toList ++ srcS ++ [NUL] ++ dstS ++ [NUL] ++ spS) ++ NUL :: (dpS ++ (NUL :: '\n' :: rest)) from by simp,
        show 13 + srcS.length + dstS.length + spS.length =
          (("PROXY TCP6 ".toList ++ srcS ++ [NUL] ++ dstS ++ [NUL] ++ spS : List Char)).length from by simp only [List.length_append, List.length_cons, List.length_nil, hP6l]; omega]
    exact getD_append_len _ _ _
  have hpd : read_uint ("PROXY TCP6 ".toList ++ srcS ++ (NUL :: (dstS ++ (NUL :: (spS ++ (NUL :: (dpS ++ (NUL :: '\n' :: rest)))))))) (14 + srcS.length + dstS.length + spS.length)
      (16 + srcS.length + dstS.length + spS.length + dpS.length - 2) =
      (dpS.foldl (fun x c => (x * 10 + (c.toNat - 48)) % 2 ^ 32) 0,
       14 + srcS.length + dstS.length + spS.length + dpS.length) := by
    rw [show "PROXY TCP6 ".toList ++ srcS ++ (NUL :: (dstS ++ (NUL :: (spS ++ (NUL :: (dpS ++ (NUL :: '\n' :: rest))))))) = ("PROXY TCP6 ".toList ++ srcS ++ [NUL] ++ dstS ++ [NUL] ++ spS ++ [NUL]) ++ dpS ++ (NUL :: '\n' :: rest) from by simp,
        show 14 + srcS.length + dstS.length + spS.length =
          (("PROXY TCP6 ".toList ++ srcS ++ [NUL] ++ dstS ++ [NUL] ++ spS ++ [NUL] : List Char)).length from by simp only [List.length_append, List.length_cons, List.length_nil, hP6l]; omega,
        show 16 + srcS.length + dstS.length + spS.length + dpS.length - 2 =
          (("PROXY TCP6 ".toList ++ srcS ++ [NUL] ++ dstS ++ [NUL] ++ spS ++ [NUL] : List Char)).length + dpS.length from by simp only [List.length_append, List.length_cons, List.length_nil, hP6l]; omega]
    rw [read_uint_seg ("PROXY TCP6 ".toList ++ srcS ++ [NUL] ++ dstS ++ [NUL] ++ spS ++ [NUL]) dpS (NUL :: '\n' :: rest) hdpd]
  have hnul4 : ("PROXY TCP6 ".toList ++ srcS ++ (NUL :: (dstS ++ (NUL :: (spS ++ (NUL :: (dpS ++ (NUL :: '\n' :: rest))))))) : List Char).getD
      (14 + srcS.length + dstS.length + spS.length + dpS.length) NUL = NUL := by
    rw [show "PROXY TCP6 ".toList ++ srcS ++ (NUL :: (dstS ++ (NUL :: (spS ++ (NUL :: (dpS ++ (NUL :: '\n' :: rest))))))) = ("PROXY TCP6 ".toList ++ srcS ++ [NUL] ++ dstS ++ [NUL] ++ spS ++ [NUL] ++ dpS) ++ NUL :: ('\n' :: rest) from by simp,
        show 14 + srcS.length + dstS.length + spS.length + dpS.length =
          (("PROXY TCP6 ".toList ++ srcS ++ [NUL] ++ dstS ++ [NUL] ++ spS ++ [NUL] ++ dpS : List Char)).length from by simp only [List.length_append, List.length_cons, List.length_nil, hP6l]; omega]
    exact getD_append_len _ _ _
  have hns1 : nulStr ("PROXY TCP6 ".toList ++ srcS ++ (NUL :: (dstS ++ (NUL :: (spS ++ (NUL :: (dpS ++ (NUL :: '\n' :: rest)))))))) 11 = srcS := by
    unfold nulStr
    rw [show "PROXY TCP6 ".toList ++ srcS ++ (NUL :: (dstS ++ (NUL :: (spS ++ (NUL :: (dpS ++ (NUL :: '\n' :: rest))))))) = "PROXY TCP6 ".toList ++ (srcS ++ (NUL :: (dstS ++ (NUL :: (spS ++ (NUL :: (dpS ++ (NUL :: '\n' :: rest)))))))) from by simp,
        List.drop_append_of_le_length (by decide :
          (11 : Nat) ≤ (("PROXY TCP6 ".toList : List Char)).length),
        show (("PROXY TCP6 ".toList : List Char)).drop 11 = [] from rfl, List.nil_append]
    exact takeWhile_append_sep _ srcS (dstS ++ (NUL :: (spS ++ (NUL :: (dpS ++ (NUL :: '\n' :: rest)))))) NUL
      (fun x hx => by simp [(hsrcch x hx).2.2]) (by simp)
  have hns2 : nulStr ("PROXY TCP6 ".toList ++ srcS ++ (NUL :: (dstS ++ (NUL :: (spS ++ (NUL :: (dpS ++ (NUL :: '\n' :: rest)))))))) (12 + srcS.length) = dstS := by
    unfold nulStr
    rw [show "PROXY TCP6 ".toList ++ srcS ++ (NUL :: (dstS ++ (NUL :: (spS ++ (NUL :: (dpS ++ (NUL :: '\n' :: rest))))))) = ("PROXY TCP6 ".toList ++ srcS ++ [NUL]) ++ (dstS ++ (NUL :: (spS ++ (NUL :: (dpS ++ (NUL :: '\n' :: rest))))))
          from by simp,
        show 12 + srcS.length = (("PROXY TCP6 ".toList ++ srcS ++ [NUL] : List Char)).length
          from by simp only [List.length_append, List.length_cons, List.length_nil, hP6l]; omega,
        List.drop_left]
    exact takeWhile_append_sep _ dstS (spS ++ (NUL :: (dpS ++ (NUL :: '\n' :: rest)))) NUL
      (fun x hx => by simp [(hdstch x hx).2.2]) (by simp)
  unfold decode_parse
  rw [if_neg (by omega : ¬ min L 6 = 0), hpx]
  simp only [Bool.true_eq_false, if_false]
  rw [if_neg (by omega : ¬ L < 18), htcp4]
  simp only [Bool.false_eq_true, if_false]
  rw [htcp6, if_pos rfl]
  unfold decode_tcp6
  rw [hscan]
  simp only [hps, hnul3, hpd, hnul4, hns1, hns2, hpton_src, hpton_dst, ne_eq,
    not_true_eq_false, if_false]

end Muppet
